import Mathlib

/-!
The particle algebra of dtromb/logic, its particle source, writer and reader.

A shallow embedding of `logic.go`, `basic_context.go` and `io.go`.

Modelling conventions.

* `ParticleType` is Go's `int`; the thirteen kinds are its `iota` constants.
* A Go `panic` is the `Except.error` branch of an `Except String` result, the
  string being the panic message.
* Particles are the four struct families of `basic_context.go`.  A slot of
  interface type `Name` holds a `BasicName`, a slot of type `NamedParticle` a
  `BasicVariable` (the only struct with `NameParticle`).  `BasicVariable` also
  has the method set of `Name`, but its `Type()` is always `VARIABLE`, so every
  constructor of the particle source rejects it in a `Name` slot.
* The `source` back reference of the structs is read by no operation modelled
  here and is left out.  `BasicTuple.hashcode` only caches the value that
  `Hash` computes from the immutable `head` and `args`; `Hash` is modelled as
  that computation.
* The package `hash` is not part of the sources: `hash.HashString` and
  `hash.FNV_PRIME` are parameters.
-/

namespace Logic

/-! ## logic.go -/

/-- Go `type ParticleType int`. -/
abbrev ParticleType := Int

abbrev NAME : ParticleType := 0
abbrev VARIABLE : ParticleType := 1
abbrev VARIABLE_NAME : ParticleType := 2
abbrev FUNCTION_NAME : ParticleType := 3
abbrev PREDICATE_NAME : ParticleType := 4
abbrev OPERATOR : ParticleType := 5
abbrev FUNCTION_EXPRESSION : ParticleType := 6
abbrev ATOMIC_PREDICATE : ParticleType := 7
abbrev PREDICATE_COMPREHENSION : ParticleType := 8
abbrev PREDICATE_EXPRESSION : ParticleType := 9
abbrev QUANTIFIER : ParticleType := 10
abbrev QUANTIFIED_TERM : ParticleType := 11
abbrev QUANTIFIED_PREDICATE : ParticleType := 12

/-- Go `ParticleType.String`. -/
def ParticleTypeString (pt : ParticleType) : String :=
  if pt = NAME then "name"
  else if pt = VARIABLE then "variable"
  else if pt = VARIABLE_NAME then "variable-name"
  else if pt = FUNCTION_NAME then "function-name"
  else if pt = PREDICATE_NAME then "predicate-name"
  else if pt = OPERATOR then "operator"
  else if pt = FUNCTION_EXPRESSION then "function-expression"
  else if pt = ATOMIC_PREDICATE then "atomic-predicate"
  else if pt = PREDICATE_COMPREHENSION then "predicate-comprehension"
  else if pt = PREDICATE_EXPRESSION then "predicate-expression"
  else if pt = QUANTIFIER then "quantifier"
  else if pt = QUANTIFIED_TERM then "quantified-term"
  else if pt = QUANTIFIED_PREDICATE then "quantified-predicate"
  else "<unknown>"

/-! ## basic_context.go: the struct families -/

/-- Go `BasicName`. -/
structure BasicName where
  name : String
  ptype : ParticleType
deriving DecidableEq, Repr

/-- Go `BasicVariable`. -/
structure BasicVariable where
  name : BasicName
deriving DecidableEq, Repr

/-- A value of the Go interface `Particle`: one of `BasicName`, `BasicVariable`,
`BasicTuple` (`head`, `args`, `ptype`) and `BasicQuantified` (`quantifier`,
`variable` as `var`, `arg`, `ptype`).  The `ptype` fields are unconstrained, as in a Go
struct literal. -/
inductive Particle where
  | ofName (n : BasicName)
  | ofVariable (v : BasicVariable)
  | ofTuple (head : BasicName) (args : List Particle) (ptype : ParticleType)
  | ofQuantified (quantifier : BasicName) (var : BasicVariable) (arg : Particle)
      (ptype : ParticleType)
deriving Repr

/-- Go `Type()` of the four struct families. -/
def Particle.Kind : Particle → ParticleType
  | .ofName n => n.ptype
  | .ofVariable _ => VARIABLE
  | .ofTuple _ _ pt => pt
  | .ofQuantified _ _ _ pt => pt

/-- Go `Term()` of the four struct families. -/
def Particle.Term : Particle → Bool
  | .ofName _ => false
  | .ofVariable _ => true
  | .ofTuple _ _ pt =>
      if pt = FUNCTION_EXPRESSION then true
      else if pt = PREDICATE_COMPREHENSION then true
      else false
  | .ofQuantified _ _ _ pt => if pt = QUANTIFIED_TERM then true else false

/-- Go `Predicate()` of the four struct families. -/
def Particle.Predicate : Particle → Bool
  | .ofName _ => false
  | .ofVariable _ => false
  | .ofTuple _ _ pt =>
      if pt = ATOMIC_PREDICATE then true
      else if pt = PREDICATE_EXPRESSION then true
      else false
  | .ofQuantified _ _ _ pt => if pt = QUANTIFIED_PREDICATE then true else false

/-- Go `Name()` of the four struct families. -/
def Particle.Name : Particle → Bool
  | .ofName _ => true
  | _ => false

/-- Go `Length()`. -/
def Particle.Length : Particle → Int
  | .ofName _ => 0
  | .ofVariable _ => 1
  | .ofTuple _ args _ => 1 + args.length
  | .ofQuantified _ _ _ _ => 3

/-- Go type assertion `p.(Name)` followed by `String()`: it succeeds on
`BasicName` and `BasicVariable`, the two structs with a `String` method. -/
def Particle.nameString : Particle → Option String
  | .ofName n => some n.name
  | .ofVariable v => some v.name.name
  | _ => none

/-! ## basic_context.go: BasicParticleSource -/

def GetVariableName (name : String) : BasicName := { name := name, ptype := VARIABLE_NAME }

def GetFunctionName (name : String) : BasicName := { name := name, ptype := FUNCTION_NAME }

def GetPredicateName (name : String) : BasicName := { name := name, ptype := PREDICATE_NAME }

def GetOperator (name : String) : BasicName := { name := name, ptype := OPERATOR }

def GetQuantifier (name : String) : BasicName := { name := name, ptype := QUANTIFIER }

def GetVariableNamed (name : String) : BasicVariable := { name := GetVariableName name }

def GetVariable (name : BasicName) : Except String BasicVariable :=
  if name.ptype ≠ VARIABLE_NAME then .error "name is not a variable name"
  else .ok { name := name }

def GetName (nameType : ParticleType) (name : String) : Except String BasicName :=
  if nameType = VARIABLE_NAME then .ok (GetVariableName name)
  else if nameType = FUNCTION_NAME then .ok (GetFunctionName name)
  else if nameType = PREDICATE_NAME then .ok (GetFunctionName name)
  else if nameType = OPERATOR then .ok (GetOperator name)
  else if nameType = QUANTIFIER then .ok (GetQuantifier name)
  else .error "type is not a name type"

/-- The copying loop of the four tuple builders: `t[i] = arg` for each argument
in order, with a panic at the first argument (index `i`, reported as `i+1` by
`fmt.Sprintf(pre + "%d" + post, i+1)`) that fails the classification `ok`. -/
def copyArgs (ok : Particle → Bool) (pre post : String) : Nat → List Particle →
    Except String (List Particle)
  | _, [] => .ok []
  | i, p :: ps =>
      if !ok p then .error (pre ++ toString (i + 1) ++ post)
      else (copyArgs ok pre post (i + 1) ps).map (fun t => p :: t)

def GetFunctionExpression (funcName : BasicName) (terms : List Particle) :
    Except String Particle :=
  if funcName.ptype ≠ FUNCTION_NAME then .error "name is not a function name"
  else (copyArgs Particle.Term "expression argument " " is not a term" 0 terms).map
    (fun t => Particle.ofTuple funcName t FUNCTION_EXPRESSION)

def GetAtomicPredicate (predName : BasicName) (terms : List Particle) :
    Except String Particle :=
  if predName.ptype ≠ PREDICATE_NAME then .error "name is not a predicate name"
  else (copyArgs Particle.Term "predicate argument " " is not a term" 0 terms).map
    (fun t => Particle.ofTuple predName t ATOMIC_PREDICATE)

def GetPredicateExpression (op : BasicName) (args : List Particle) :
    Except String Particle :=
  if op.ptype ≠ OPERATOR then .error "op is not an operator"
  else (copyArgs Particle.Predicate "expression argument " " is not a predicate" 0 args).map
    (fun t => Particle.ofTuple op t PREDICATE_EXPRESSION)

def GetPredicateComprehension (op : BasicName) (args : List Particle) :
    Except String Particle :=
  if op.ptype ≠ OPERATOR then .error "op is not an operator"
  else (copyArgs Particle.Predicate "comprehension argument " " is not a predicate" 0 args).map
    (fun t => Particle.ofTuple op t PREDICATE_COMPREHENSION)

def GetTuple (tupleType : ParticleType) (head : BasicName) (args : List Particle) :
    Except String Particle :=
  if tupleType = ATOMIC_PREDICATE then GetAtomicPredicate head args
  else if tupleType = FUNCTION_EXPRESSION then GetAtomicPredicate head args
  else if tupleType = PREDICATE_EXPRESSION then GetPredicateExpression head args
  else if tupleType = PREDICATE_COMPREHENSION then GetPredicateComprehension head args
  else .error "type is not a tuple type"

def GetQuantifiedTerm (quantifier : BasicName) (var : BasicVariable) (arg : Particle) :
    Except String Particle :=
  if quantifier.ptype ≠ QUANTIFIER then .error "first argument is not a quantifier"
  else if (Particle.ofVariable var).Kind ≠ VARIABLE then
    .error "second argument is not a variable"
  else if !arg.Predicate then .error "third argument is not a predicate"
  else .ok (Particle.ofQuantified quantifier var arg QUANTIFIED_TERM)

def GetQuantifiedPredicate (quantifier : BasicName) (var : BasicVariable)
    (arg : Particle) : Except String Particle :=
  if quantifier.ptype ≠ QUANTIFIER then .error "first argument is not a quantifier"
  else if (Particle.ofVariable var).Kind ≠ VARIABLE then
    .error "second argument is not a variable"
  else if !arg.Predicate then .error "third argument is not a predicate"
  else .ok (Particle.ofQuantified quantifier var arg QUANTIFIED_PREDICATE)

/-- The view of a particle through the Go interface `Name` (`p.(Name)`): its
`String()` and its `Type()`.  `BasicName` and `BasicVariable` have the method
set; a `BasicVariable` shows kind `VARIABLE`, which every builder rejects, so
the view of a variable is never stored in a particle. -/
def Particle.asName : Particle → Option BasicName
  | .ofName n => some n
  | .ofVariable v => some { name := v.name.name, ptype := VARIABLE }
  | _ => none

/-- Go type assertion `p.(NamedParticle)`: only `BasicVariable` has
`NameParticle`. -/
def Particle.asNamedParticle : Particle → Option BasicVariable
  | .ofVariable v => some v
  | _ => none

/-- The panic of the two quantified cases of `Get` when an assertion fails. -/
def quantifiedArgsMessage (p0 p1 : Particle) : String :=
  "quantified construction first two args must be Name and NamedPredicate (got " ++
    ParticleTypeString p0.Kind ++ " and " ++ ParticleTypeString p1.Kind ++ ")"

def Get (ptype : ParticleType) (parts : List Particle) : Except String Particle :=
  if ptype = VARIABLE then
    match parts with
    | [p0] =>
        match p0.asName with
        | some n => (GetVariable n).map Particle.ofVariable
        | none => .error "VARIABLE argument must be a Name"
    | _ => .error "VARIABLE construction requires exactly one argument"
  else if ptype = FUNCTION_EXPRESSION ∨ ptype = ATOMIC_PREDICATE ∨
      ptype = PREDICATE_COMPREHENSION ∨ ptype = PREDICATE_EXPRESSION then
    match parts with
    | [] => .error "tuple construction requires at least one argument"
    | p0 :: rest =>
        match p0.asName with
        | some n => GetTuple ptype n rest
        | none => .error "tuple construction first argument must be a Name"
  else if ptype = QUANTIFIED_TERM then
    match parts with
    | [p0, p1, p2] =>
        match p0.asName, p1.asNamedParticle with
        | some n, some v => GetQuantifiedTerm n v p2
        | _, _ => .error (quantifiedArgsMessage p0 p1)
    | _ => .error "quantified construction requires exactly three arguments"
  else if ptype = QUANTIFIED_PREDICATE then
    match parts with
    | [p0, p1, p2] =>
        match p0.asName, p1.asNamedParticle with
        | some n, some v => GetQuantifiedPredicate n v p2
        | _, _ => .error (quantifiedArgsMessage p0 p1)
    | _ => .error "quantified construction requires exactly three arguments"
  else .error "invalid or name-typed particle requested"

/-! ## Hash and Equals

`Hash` and `Equals` take fuel: `BasicVariable.Hash` calls itself, so a result
`none` means that the computation did not finish within the fuel.  The other
recursions descend into the particle and finish once the fuel exceeds its
depth. -/

/-- Wrap-around of `uint64` arithmetic. -/
def u64 (n : Nat) : Nat := n % 18446744073709551616

/-- Go conversion `uint64(pt)` of an `int`. -/
def u64OfInt (pt : Int) : Nat := (pt % 18446744073709551616).toNat

/-- Go `BasicName.Hash`: `hash.HashString(n.name) ^ uint64(n.ptype)`. -/
def BasicName.Hash (HashString : String → Nat) (n : BasicName) : Nat :=
  u64 (HashString n.name) ^^^ u64OfInt n.ptype

/-- One turn of the loop of `HashParticleArray`: `h = (hash.FNV_PRIME * h) ^ p.Hash()`. -/
def hashStep (FNV_PRIME : Nat) (h : Option Nat) (ph : Option Nat) : Option Nat :=
  match h, ph with
  | some h, some x => some (u64 (FNV_PRIME * h) ^^^ x)
  | _, _ => none

/-- Go `Hash()` of the four struct families; `none` when the fuel runs out.
The tuple case calls `HashParticleArray(t.args)`, a left fold of `hashStep`
from `0`. -/
def Hash (HashString : String → Nat) (FNV_PRIME : Nat) : Nat → Particle → Option Nat
  | 0, _ => none
  | _ + 1, .ofName n => some (BasicName.Hash HashString n)
  | fuel + 1, .ofVariable v =>
      (Hash HashString FNV_PRIME fuel (.ofVariable v)).map (fun h => h ^^^ u64OfInt VARIABLE)
  | fuel + 1, .ofTuple head args _ =>
      (args.foldl (fun h p => hashStep FNV_PRIME h (Hash HashString FNV_PRIME fuel p))
        (some 0)).map (fun ha => u64 (BasicName.Hash HashString head * 11) ^^^ ha)
  | fuel + 1, .ofQuantified q v arg _ =>
      match Hash HashString FNV_PRIME fuel (.ofVariable v),
          Hash HashString FNV_PRIME fuel arg with
      | some hv, some ha => some (u64 (BasicName.Hash HashString q * 3) ^^^ u64 (hv * 5) ^^^ ha)
      | _, _ => none

/-- Go `HashParticleArray`. -/
def HashParticleArray (HashString : String → Nat) (FNV_PRIME : Nat) (fuel : Nat)
    (arr : List Particle) : Option Nat :=
  arr.foldl (fun h p => hashStep FNV_PRIME h (Hash HashString FNV_PRIME fuel p)) (some 0)

/-- Go `BasicName.Equals`; the assertion `p.(Name)` panics when it fails. -/
def BasicName.Equals (n : BasicName) (p : Particle) : Except String Bool :=
  if p.Kind ≠ n.ptype then .ok false
  else match p.nameString with
    | some s => .ok (s == n.name)
    | none => .error "interface conversion: Particle is not Name"

/-- Go `BasicVariable.Equals`; the assertion `p.(Name)` panics when it fails. -/
def BasicVariable.Equals (v : BasicVariable) (p : Particle) : Except String Bool :=
  if p.Kind ≠ VARIABLE then .ok false
  else match p.nameString with
    | some s => .ok (s == v.name.name)
    | none => .error "interface conversion: Particle is not Name"

/-- Go `&&` on results that may panic: the right operand runs only when the left
one returned `true`. -/
def andThen (a : Option (Except String Bool)) (b : Unit → Option (Except String Bool)) :
    Option (Except String Bool) :=
  match a with
  | some (.ok true) => b ()
  | r => r

/-- The loop `for i, a := range tp.Arguments()` of `BasicTuple.Equals`: each
argument `a` of `p` is compared with `t.args[i]` by `a.Equals`, here `eq`; the
first `false` ends the loop. -/
def argLoop (eq : Particle → Particle → Option (Except String Bool)) :
    List Particle → List Particle → Option (Except String Bool)
  | [], _ => some (.ok true)
  | _ :: _, [] => some (.error "index out of range")
  | a :: as, b :: bs =>
      match eq a b with
      | some (.ok true) => argLoop eq as bs
      | r => r

/-- Go `Equals` of the four struct families, receiver first.  `same t p` is the
pointer comparison `t == p` of `BasicTuple.Equals`.  A result `none` means that
the fuel ran out, `some (.error _)` a panic. -/
def Equals (HashString : String → Nat) (FNV_PRIME : Nat) (same : Particle → Particle → Bool) :
    Nat → Particle → Particle → Option (Except String Bool)
  | 0, _, _ => none
  | _ + 1, .ofName n, p => some (BasicName.Equals n p)
  | _ + 1, .ofVariable v, p => some (BasicVariable.Equals v p)
  | fuel + 1, .ofTuple head args pt, p =>
      let t := Particle.ofTuple head args pt
      if p.Kind ≠ pt then some (.ok false)
      else if same t p then some (.ok true)
      else
        match Hash HashString FNV_PRIME (fuel + 1) t, Hash HashString FNV_PRIME (fuel + 1) p with
        | some ht, some hp =>
            if ht ≠ hp then some (.ok true)
            else
              match p with
              | .ofTuple phead pargs _ =>
                  match BasicName.Equals phead (.ofName head) with
                  | .error e => some (.error e)
                  | .ok false => some (.ok false)
                  | .ok true =>
                      if (pargs.length : Int) ≠ args.length then some (.ok false)
                      else argLoop (Equals HashString FNV_PRIME same fuel) pargs args
              | _ => some (.ok false)
        | _, _ => none
  | fuel + 1, .ofQuantified q v arg pt, p =>
      if p.Kind ≠ pt then some (.ok false)
      else
        match p with
        | .ofQuantified pq pv parg _ =>
            andThen (some (BasicName.Equals pq (.ofName q))) fun _ =>
              andThen (some (BasicVariable.Equals pv (.ofVariable v))) fun _ =>
                Equals HashString FNV_PRIME same fuel parg arg
        | _ => some (.ok false)

/-- The pointer comparison `t == p` between particles built by separate calls of
the source: each call allocates a new struct, so no two of them are the same
object. -/
def distinctObjects : Particle → Particle → Bool := fun _ _ => false

/-! ## io.go: StandardWriter

`GetStandardWriter` sets `Chain` to the writer itself, so `lw.Chain.Write` is
the recursive call.  The sink is the text written so far.  A result
`.ok (out, e)` is a return with sink `out` and returned error `e` (`none` is
`nil`); `.error` is a panic of a failed type assertion. -/

/-- The `switch` of `StandardWriter.Write` over `p.Type()`.  The arguments after
the kind are what the type assertions of the cases yield for `p`: `name` is
`p.(Name).String()` (also `p.(NamedParticle).String()` when `named`), `tuple` is
the head string of `p.(TupleParticle)` with the loop over its arguments, `quant`
is the quantifier string of `p.(QuantifiedParticle)` with the chained writes of
its variable and of its argument. -/
def WriteSwitch (k : ParticleType) (named : Bool) (name : Option String)
    (tuple : Option (String × (String → Except String String)))
    (quant : Option (String × (String → Except String String) ×
      (String → Except String String)))
    (out : String) : Except String (String × Option String) :=
  let asName (pre : String) : Except String (String × Option String) :=
    match name with
    | some s => .ok (out ++ (pre ++ s ++ "'"), none)
    | none => .error "interface conversion: Particle is not Name"
  let asTuple (l : String → String) (r : String) : Except String (String × Option String) :=
    match tuple with
    | some (h, loop) => (loop (out ++ l h)).map (fun o => (o ++ r, none))
    | none => .error "interface conversion: Particle is not TupleParticle"
  if k = VARIABLE then
    match named, name with
    | true, some s => .ok (out ++ ("$" ++ s), none)
    | _, _ => .error "interface conversion: Particle is not NamedParticle"
  else if k = VARIABLE_NAME then asName "'var:"
  else if k = FUNCTION_NAME then asName "'func:"
  else if k = PREDICATE_NAME then asName "'pred:"
  else if k = OPERATOR then asName "'op:"
  else if k = QUANTIFIER then asName "'quant:"
  else if k = FUNCTION_EXPRESSION then asTuple (fun h => h ++ "(") ")"
  else if k = ATOMIC_PREDICATE then asTuple (fun h => h ++ "[") "]"
  else if k = PREDICATE_COMPREHENSION then asTuple (fun h => "\x7b" ++ h ++ ";") "\x7d"
  else if k = PREDICATE_EXPRESSION then asTuple (fun h => "\x7b" ++ h ++ ":") "\x7d"
  else if k = QUANTIFIED_TERM ∨ k = QUANTIFIED_PREDICATE then
    match quant with
    | some (q, wv, wa) => do
        let o1 ← wv (out ++ q)
        let o2 ← wa (o1 ++ ":")
        .ok (o2 ++ ":", none)
    | none => .error "interface conversion: Particle is not QuantifiedParticle"
  else .ok (out, some "attempt to write invalid particle type")

mutual
/-- Go `StandardWriter.Write` with the default chain. -/
def Write : Particle → String → Except String (String × Option String)
  | .ofName n, out => WriteSwitch n.ptype false (some n.name) none none out
  | .ofVariable v, out => WriteSwitch VARIABLE true (some v.name.name) none none out
  | .ofTuple head args pt, out =>
      WriteSwitch pt false none (some (head.name, fun o => WriteArgs args 0 args.length o))
        none out
  | .ofQuantified q v arg pt, out =>
      WriteSwitch pt false none none
        (some (q.name,
          fun o => (WriteSwitch VARIABLE true (some v.name.name) none none o).map Prod.fst,
          fun o => (Write arg o).map Prod.fst)) out
/-- The loop `for i, t := range tp.Arguments()` of the tuple cases, from index
`i` on: the chained write of `t`, whose returned error is dropped, then a comma
if `i < tp.Arity()-1`. -/
def WriteArgs : List Particle → Nat → Nat → String → Except String String
  | [], _, _, out => .ok out
  | t :: ts, i, arity, out => do
      let r ← Write t out
      let o := if (i : Int) < (arity : Int) - 1 then r.1 ++ "," else r.1
      WriteArgs ts (i + 1) arity o
end

/-! ## io.go: StandardReader

The input `*bufio.Reader` is the list of runes still to be read; `ReadRune`
takes the head, `UnreadRune` puts it back.  Every string that the reader passes
to `NextString` is one ASCII character, so the byte count of `in.Read` is the
rune count.  `GetStandardReader` sets `Chain` to the reader itself, so
`sr.Chain.ReadTerm` and `sr.Chain.ReadPredicate` are calls on the same reader.
`ReadTerm`, `IdentifierStart` and `IdentifierPart` are not defined by
`StandardReader`: they are the methods of the embedded `LogicReader`, which
`GetStandardReader` leaves `nil`.  The `Println` calls of `ReadPredicate` write
to standard output and are not modelled. -/

/-- Go `NamePrefix`. -/
def NamePrefix (nameType : ParticleType) : String :=
  if nameType = VARIABLE_NAME then "var"
  else if nameType = QUANTIFIER then "quant"
  else if nameType = PREDICATE_NAME then "pred"
  else if nameType = FUNCTION_NAME then "func"
  else ""

/-- Go `PredicateTupleMark`. -/
def PredicateTupleMark (partType : ParticleType) : String :=
  if partType = PREDICATE_COMPREHENSION then ";"
  else if partType = PREDICATE_EXPRESSION then ":"
  else ""

/-- Go `BasicParticleSource`, a struct without fields. -/
inductive BasicParticleSource where
  | mk
deriving DecidableEq, Repr

/-- A value of the Go interface `ParticleSource`: `none` is `nil`. -/
abbrev ParticleSource := Option BasicParticleSource

def CreateBasicParticleSource : ParticleSource := some BasicParticleSource.mk

/-- The methods that a `StandardReader` takes from its embedded `LogicReader`.
`ReadTerm source input` returns the particle, the error and the input left. -/
structure EmbeddedReader where
  ReadTerm : ParticleSource → List Char → Option Particle × Option String × List Char
  IdentifierStart : Char → Bool
  IdentifierPart : Char → Bool

/-- Go `StandardReader`; `LogicReader` is the embedded interface, `none` when `nil`. -/
structure StandardReader where
  LogicReader : Option EmbeddedReader
  line : Int
  col : Int
  pos : Int
  errMsg : String
  cTerm : Option Particle
  cString : String
  cIdentifier : String
  cPred : Option Particle
  cSource : ParticleSource

/-- Go `GetStandardReader`: the zero value of the struct with `Chain` set to itself. -/
def GetStandardReader : StandardReader :=
  { LogicReader := none, line := 0, col := 0, pos := 0, errMsg := "", cTerm := none,
    cString := "", cIdentifier := "", cPred := none, cSource := none }

/-- How a step of the reader ends: it returns `a`, or it panics, each with the
reader and the input as the step left them; `stuck` is a loop or a recursion
that ran out of fuel. -/
inductive Outcome (α : Type) where
  | ret (a : α) (sr : StandardReader) (inp : List Char)
  | panic (sr : StandardReader) (inp : List Char)
  | stuck

/-- Sequencing of two steps: the second runs only when the first returned. -/
def Outcome.bind {α β : Type} (x : Outcome α)
    (f : α → StandardReader → List Char → Outcome β) : Outcome β :=
  match x with
  | .ret a sr inp => f a sr inp
  | .panic sr inp => .panic sr inp
  | .stuck => .stuck

/-- Go `StandardReader.Error`: store the message, then panic. -/
def Error {α : Type} (sr : StandardReader) (inp : List Char) (msg : String) : Outcome α :=
  .panic { sr with errMsg := msg } inp

/-- Go `unicode.IsSpace`: the White_Space property. -/
def IsSpace (c : Char) : Bool :=
  let n := c.toNat
  (9 ≤ n && n ≤ 13) || n = 32 || n = 133 || n = 160 || n = 5760 ||
    (8192 ≤ n && n ≤ 8202) || n = 8232 || n = 8233 || n = 8239 || n = 8287 || n = 12288

/-- Go `StandardReader.NextString`.  `in.Read(buf)` takes up to `len(expect)`
characters; its error is `io.EOF` when a character is asked for and none is
left. -/
def NextString (sr : StandardReader) (inp : List Char) (expect : String) : Outcome String :=
  if sr.cString ≠ "" then
    if sr.cString ≠ expect then Error sr inp ("expected '" ++ expect ++ "'")
    else .ret expect { sr with cString := "" } inp
  else
    let buf := inp.take expect.length
    let k : Int := buf.length
    let eof : Bool := expect.length ≠ 0 && inp.isEmpty
    let sr1 := { sr with col := sr.col + k, pos := sr.pos + k }
    let rest := inp.drop expect.length
    if eof || buf.length ≠ expect.length then
      Error sr1 rest ("expected '" ++ expect ++ "' (" ++
        (if eof then "EOF" else "unexpected short read") ++ ")")
    else if String.mk buf ≠ expect then Error sr1 rest ("expected '" ++ expect ++ "'")
    else .ret expect sr1 rest

/-- The loop of `NextWS` with the count `k` so far. -/
def NextWSLoop : StandardReader → List Char → Int → Int × StandardReader × List Char
  | sr, [], k => (k, sr, [])
  | sr, c :: rest, k =>
      if !IsSpace c then (k, sr, c :: rest)
      else
        let sr1 := { sr with pos := sr.pos + 1 }
        let sr2 := if c = Char.ofNat 10 then { sr1 with col := 1, line := sr1.line + 1 }
          else { sr1 with col := sr1.col + 1 }
        NextWSLoop sr2 rest (k + 1)

/-- Go `StandardReader.NextWS`; it cannot panic. -/
def NextWS (sr : StandardReader) (inp : List Char) : Int × StandardReader × List Char :=
  NextWSLoop sr inp 0

/-- Go `StandardReader.TestPeek`. -/
def TestPeek (inp : List Char) (c : Char) : Bool :=
  match inp with
  | [] => false
  | c0 :: _ => c == c0

/-- The loop of `NextIdentifier` with the runes `id` collected so far.  The call
of `IdentifierStart` or `IdentifierPart` on a `nil` embedded reader panics after
the rune was read.  On a rejected rune the loop unreads it and breaks when `id`
is empty, and otherwise evaluates `err.Error()` on the `nil` error, a panic that
leaves `errMsg` as it was. -/
def NextIdentifierLoop : StandardReader → List Char → List Char → Outcome String
  | sr, id, [] =>
      if id.length ≠ 0 then .ret (String.mk id) sr []
      else Error sr [] "expected identifier (EOF)"
  | sr, id, c :: rest =>
      match sr.LogicReader with
      | none => .panic sr rest
      | some lr =>
          let ok := if id.length = 0 then lr.IdentifierStart c else lr.IdentifierPart c
          if !ok then
            if id.length = 0 then .ret (String.mk id) sr (c :: rest)
            else .panic sr (c :: rest)
          else NextIdentifierLoop { sr with pos := sr.pos + 1, col := sr.col + 1 } (id ++ [c]) rest

/-- Go `StandardReader.NextIdentifier`. -/
def NextIdentifier (sr : StandardReader) (inp : List Char) : Outcome String :=
  if sr.cIdentifier ≠ "" then .ret sr.cIdentifier { sr with cIdentifier := "" } inp
  else NextIdentifierLoop sr [] inp

/-- Go `StandardReader.NextTerm`; the particle it returns may be `nil`. -/
def NextTerm (sr : StandardReader) (inp : List Char) : Outcome (Option Particle) :=
  match sr.cTerm with
  | some t => .ret (some t) { sr with cTerm := none } inp
  | none =>
      match sr.LogicReader with
      | none => .panic sr inp
      | some lr =>
          match lr.ReadTerm sr.cSource inp with
          | (t, none, rest) => .ret t sr rest
          | (_, some e, rest) => Error sr rest ("expected term (" ++ e ++ ")")

/-- What `ReadParticle` returns, with the reader and the input as it left them. -/
structure ReadResult where
  rp : Option Particle
  re : Option String
  sr : StandardReader
  inp : List Char

/-- Go `StandardReader.NextPredicate`; `rd` is `sr.Chain.ReadPredicate`, whose
result is `none` when it ran out of fuel. -/
def NextPredicate (rd : StandardReader → ParticleSource → List Char → Option ReadResult)
    (sr : StandardReader) (inp : List Char) : Outcome (Option Particle) :=
  match sr.cPred with
  | some t => .ret (some t) { sr with cPred := none } inp
  | none =>
      match rd sr sr.cSource inp with
      | none => .stuck
      | some r =>
          match r.re with
          | some e => Error r.sr r.inp ("expected predicate (" ++ e ++ ")")
          | none => .ret r.rp r.sr r.inp

/-- The loop of `ReadDelimitedTermList` from `term := sr.NextTerm(in)` on. -/
def termLoop (rdelim : Char) : Nat → StandardReader → List Char → List (Option Particle) →
    Outcome (List (Option Particle))
  | 0, _, _, _ => .stuck
  | fuel + 1, sr, inp, args =>
      (NextTerm sr inp).bind fun term sr inp =>
        let ws := NextWS sr inp
        if TestPeek ws.2.2 rdelim then .ret (args ++ [term]) ws.2.1 ws.2.2
        else (NextString ws.2.1 ws.2.2 ",").bind fun _ sr inp =>
          let ws2 := NextWS sr inp
          termLoop rdelim fuel ws2.2.1 ws2.2.2 (args ++ [term])

/-- Go `StandardReader.ReadDelimitedTermList`; the closing delimiter stays in the
input. -/
def ReadDelimitedTermList (fuel : Nat) (sr : StandardReader) (inp : List Char)
    (ldelim rdelim : Char) : Outcome (List (Option Particle)) :=
  (NextString sr inp (String.singleton ldelim)).bind fun _ sr inp =>
    let ws := NextWS sr inp
    if !TestPeek ws.2.2 rdelim then termLoop rdelim fuel ws.2.1 ws.2.2 []
    else .ret [] ws.2.1 ws.2.2

/-- The loop of the predicate tuple cases of `ReadParticle` from
`arg := sr.NextPredicate(in)` on; `panic("expected ','")` leaves `errMsg` as it
was, and the comma is peeked, not read. -/
def predLoop (rd : StandardReader → ParticleSource → List Char → Option ReadResult) :
    Nat → StandardReader → List Char → List (Option Particle) →
    Outcome (List (Option Particle))
  | 0, _, _, _ => .stuck
  | fuel + 1, sr, inp, args =>
      (NextPredicate rd sr inp).bind fun arg sr inp =>
        let ws := NextWS sr inp
        if TestPeek ws.2.2 (Char.ofNat 125) then .ret (args ++ [arg]) ws.2.1 ws.2.2
        else if !TestPeek ws.2.2 ',' then .panic ws.2.1 ws.2.2
        else
          let ws2 := NextWS ws.2.1 ws.2.2
          predLoop rd fuel ws2.2.1 ws2.2.2 (args ++ [arg])

/-- A call `source.Build(..., args...)` at the end of a case of `ReadParticle`:
a panic when `source` is `nil`, when an argument is `nil` (the builder calls a
method on it unless it has panicked before) or when the builder panics. -/
def construct (source : ParticleSource) (args : List (Option Particle))
    (build : List Particle → Except String Particle) (sr : StandardReader)
    (inp : List Char) : Outcome (Option Particle) :=
  match source, args.allSome with
  | some _, some as =>
      match build as with
      | .ok p => .ret (some p) sr inp
      | .error _ => .panic sr inp
  | _, _ => .panic sr inp

/-- The body of `ReadParticle`, before the deferred `recover`.  The value `none`
is the `return nil,nil` after the `switch`. -/
def ReadParticleBody (rd : StandardReader → ParticleSource → List Char → Option ReadResult)
    (fuel : Nat) (sr : StandardReader) (source : ParticleSource) (ptype : ParticleType)
    (inp : List Char) : Outcome (Option Particle) :=
  if ptype = VARIABLE then
    (NextString sr inp "$").bind fun _ sr inp =>
      (NextIdentifier sr inp).bind fun id sr inp =>
        construct source [] (fun _ => .ok (.ofVariable (GetVariableNamed id))) sr inp
  else if ptype = VARIABLE_NAME ∨ ptype = FUNCTION_NAME ∨ ptype = PREDICATE_NAME ∨
      ptype = OPERATOR then
    (NextString sr inp "'").bind fun _ sr inp =>
      (NextIdentifier sr inp).bind fun key sr inp =>
        if key ≠ NamePrefix ptype then .panic sr inp
        else
          (NextString sr inp ":").bind fun _ sr inp =>
            (NextIdentifier sr inp).bind fun id sr inp =>
              (NextString sr inp "'").bind fun _ sr inp =>
                construct source [] (fun _ => (GetName ptype id).map Particle.ofName) sr inp
  else if ptype = FUNCTION_EXPRESSION then
    (NextIdentifier sr inp).bind fun name sr inp =>
      let ws := NextWS sr inp
      (ReadDelimitedTermList fuel ws.2.1 ws.2.2 '(' ')').bind fun args sr inp =>
        construct source args (GetFunctionExpression (GetFunctionName name)) sr inp
  else if ptype = ATOMIC_PREDICATE then
    (NextIdentifier sr inp).bind fun name sr inp =>
      let ws := NextWS sr inp
      (ReadDelimitedTermList fuel ws.2.1 ws.2.2 '[' ']').bind fun args sr inp =>
        construct source args (GetAtomicPredicate (GetPredicateName name)) sr inp
  else if ptype = PREDICATE_COMPREHENSION ∨ ptype = PREDICATE_EXPRESSION then
    (NextString sr inp "\x7b").bind fun _ sr inp =>
      let ws := NextWS sr inp
      (NextIdentifier ws.2.1 ws.2.2).bind fun op sr inp =>
        let ws2 := NextWS sr inp
        (NextString ws2.2.1 ws2.2.2 (PredicateTupleMark ptype)).bind fun _ sr inp =>
          let ws3 := NextWS sr inp
          let readArgs : Outcome (List (Option Particle)) :=
            if !TestPeek ws3.2.2 (Char.ofNat 125) then predLoop rd fuel ws3.2.1 ws3.2.2 []
            else .ret [] ws3.2.1 ws3.2.2
          readArgs.bind fun args sr inp =>
            construct source args (GetTuple ptype (GetOperator op)) sr inp
  else if ptype = QUANTIFIED_PREDICATE ∨ ptype = QUANTIFIED_TERM then
    (NextIdentifier sr inp).bind fun q sr inp =>
      let ws := NextWS sr inp
      (NextString ws.2.1 ws.2.2 "$").bind fun _ sr inp =>
        (NextIdentifier sr inp).bind fun id sr inp =>
          let ws2 := NextWS sr inp
          (NextString ws2.2.1 ws2.2.2 ":").bind fun _ sr inp =>
            let ws3 := NextWS sr inp
            (NextPredicate rd ws3.2.1 ws3.2.2).bind fun arg sr inp =>
              let ws4 := NextWS sr inp
              (NextString ws4.2.1 ws4.2.2 ":").bind fun _ sr inp =>
                if ptype = QUANTIFIED_PREDICATE then
                  construct source [arg] (fun as =>
                    match as with
                    | [a] => GetQuantifiedPredicate (GetQuantifier q) (GetVariableNamed id) a
                    | _ => .error "unreachable") sr inp
                else
                  construct source [arg] (fun as =>
                    match as with
                    | [a] => GetQuantifiedTerm (GetQuantifier q) (GetVariableNamed id) a
                    | _ => .error "unreachable") sr inp
  else .ret none sr inp

/-- The deferred function of `ReadParticle`: a panic becomes a `nil` particle
with the error `"<errMsg> at <line>:<col> (pos=<pos>)"`. -/
def recovered : Outcome (Option Particle) → Option ReadResult
  | .ret p sr inp => some { rp := p, re := none, sr := sr, inp := inp }
  | .panic sr inp =>
      some { rp := none,
             re := some (sr.errMsg ++ " at " ++ toString sr.line ++ ":" ++ toString sr.col ++
               " (pos=" ++ toString sr.pos ++ ")"),
             sr := sr, inp := inp }
  | .stuck => none

/-- Go `StandardReader.ReadPredicate`, which calls `ReadParticle` for
`PREDICATE_EXPRESSION` or `ATOMIC_PREDICATE`; `none` when the fuel runs out. -/
def ReadPredicate : Nat → StandardReader → ParticleSource → List Char → Option ReadResult
  | 0, _, _, _ => none
  | fuel + 1, sr, source, inp =>
      if TestPeek inp (Char.ofNat 123) then
        recovered (ReadParticleBody (ReadPredicate fuel) fuel sr source PREDICATE_EXPRESSION inp)
      else
        recovered (ReadParticleBody (ReadPredicate fuel) fuel sr source ATOMIC_PREDICATE inp)

/-- Go `StandardReader.ReadParticle`; `none` when the fuel runs out. -/
def ReadParticle (fuel : Nat) (sr : StandardReader) (source : ParticleSource)
    (ptype : ParticleType) (inp : List Char) : Option ReadResult :=
  recovered (ReadParticleBody (ReadPredicate fuel) fuel sr source ptype inp)

/-- A reader whose embedded `LogicReader` is `nil` and that holds no pushed-back
identifier, as `GetStandardReader` returns it. -/
def NoPolicy (sr : StandardReader) : Prop :=
  sr.LogicReader = none ∧ sr.cIdentifier = ""

/-- The step ended in a panic. -/
def Outcome.Panics {α : Type} : Outcome α → Prop
  | .panic _ _ => True
  | _ => False

/-! ## Example particles -/

/-- The formula of `TestIO`, built as the test builds it: for all x, Foo(x)
implies x = y. -/
def testFormula : Except String Particle := do
  let varX := GetVariableNamed "x"
  let varY := GetVariableNamed "y"
  let qEx := GetQuantifier "A"
  let predEq := GetPredicateName "="
  let opImpl := GetOperator "->"
  let predFoo := GetPredicateName "Foo"
  let foo ← GetAtomicPredicate predFoo [.ofVariable varX]
  let eq ← GetAtomicPredicate predEq [.ofVariable varX, .ofVariable varY]
  let body ← GetPredicateExpression opImpl [foo, eq]
  Get QUANTIFIED_PREDICATE [.ofName qEx, .ofVariable varX, body]

/-- The text that `StandardWriter.Write` leaves in an empty sink for the particle
that a construction returned, with the error it returns. -/
def written (r : Except String Particle) : Except String (String × Option String) :=
  r.bind (fun p => Write p "")

/-- The predicate-expression `{s:}`: operator `s`, no argument. -/
def emptyExpression (s : String) : Particle :=
  .ofTuple (GetOperator s) [] PREDICATE_EXPRESSION

/-- The atomic predicate `s[]`: predicate name `s`, no argument. -/
def emptyAtom (s : String) : Particle :=
  .ofTuple (GetPredicateName s) [] ATOMIC_PREDICATE

/-- The predicate-expression with operator `s` and the single argument `p`. -/
def unaryExpression (s : String) (p : Particle) : Particle :=
  .ofTuple (GetOperator s) [p] PREDICATE_EXPRESSION

/-! ## basic_context.go: accessors -/

/-- Go `BasicName.String`. -/
def BasicName.String (n : BasicName) : String := n.name

/-- Go `BasicVariable.String`: `v.name.String()`. -/
def BasicVariable.String (v : BasicVariable) : String := v.name.String

/-- Go `BasicVariable.NameParticle`. -/
def BasicVariable.NameParticle (v : BasicVariable) : BasicName := v.name

/-- Go `BasicTuple.Head`; `none` on the structs without the method. -/
def Particle.Head : Particle → Option BasicName
  | .ofTuple head _ _ => some head
  | _ => none

/-- Go `BasicTuple.Arity`: `len(t.args)`; `none` on the structs without the
method. -/
def Particle.Arity : Particle → Option Int
  | .ofTuple _ args _ => some args.length
  | _ => none

/-- Go `BasicTuple.Arguments`: a copy of `t.args`; `none` on the structs without
the method. -/
def Particle.Arguments : Particle → Option (List Particle)
  | .ofTuple _ args _ => some args
  | _ => none

/-- Go `Part(idx)` of the four struct families.  The value `none` is `nil`; on a
tuple a negative index reaches `t.args[idx-1]`, an index out of range. -/
def Particle.Part : Particle → Int → Except String (Option Particle)
  | .ofName _, _ => .ok none
  | .ofVariable v, idx => if idx ≠ 0 then .ok none else .ok (some (.ofName v.name))
  | .ofTuple head args _, idx =>
      if idx = 0 then .ok (some (.ofName head))
      else if idx > args.length then .ok none
      else if idx - 1 < 0 then .error "index out of range"
      else .ok (args.get? (idx - 1).toNat)
  | .ofQuantified q v arg _, idx =>
      if idx = 0 then .ok (some (.ofName q))
      else if idx = 1 then .ok (some (.ofVariable v))
      else if idx = 2 then .ok (some arg)
      else .ok none

/-- Go `BasicQuantified.Quantifier`; `none` on the structs without the method. -/
def Particle.Quantifier : Particle → Option BasicName
  | .ofQuantified q _ _ _ => some q
  | _ => none

/-- Go `BasicQuantified.Variable`; `none` on the structs without the method. -/
def Particle.Variable : Particle → Option BasicVariable
  | .ofQuantified _ v _ _ => some v
  | _ => none

/-- Go `BasicQuantified.Argument`; `none` on the structs without the method. -/
def Particle.Argument : Particle → Option Particle
  | .ofQuantified _ _ arg _ => some arg
  | _ => none


/-- The kinds for which `GetName` returns a name. -/
def IsNameKind (k : ParticleType) : Prop :=
  k = VARIABLE_NAME ∨ k = FUNCTION_NAME ∨ k = PREDICATE_NAME ∨ k = OPERATOR ∨ k = QUANTIFIER


/-! ## The canonical grammar and the particles of the source -/

/-- The prefix of a name in the canonical grammar of the specification: `var`,
`func`, `pred`, `op`, `quant`, one for each name kind. -/
def canonicalPrefix (k : ParticleType) : String :=
  if k = VARIABLE_NAME then "var"
  else if k = FUNCTION_NAME then "func"
  else if k = PREDICATE_NAME then "pred"
  else if k = OPERATOR then "op"
  else if k = QUANTIFIER then "quant"
  else ""

/-- The texts joined by `,`, with no separator after the last one. -/
def joinComma : List String → String
  | [] => ""
  | [a] => a
  | a :: b :: l => a ++ "," ++ joinComma (b :: l)

mutual
/-- The text of a particle in the canonical grammar of the specification, by
recursion: a variable is `$` and its name; a name is its prefix and its string
between quotes, with `:` in between; a function-expression is the head, then the
arguments joined by `,` between parentheses; an atomic predicate the same between
brackets; a predicate-comprehension is the head, `;` and the arguments between
braces; a predicate-expression the same with `:`; a quantified particle is the
quantifier, `$` and the variable, `:`, the body, `:`. -/
def canonicalText : Particle → String
  | .ofName n => "'" ++ canonicalPrefix n.ptype ++ ":" ++ n.name ++ "'"
  | .ofVariable v => "$" ++ v.name.name
  | .ofTuple head args pt =>
      if pt = FUNCTION_EXPRESSION then
        head.name ++ "(" ++ joinComma (canonicalTexts args) ++ ")"
      else if pt = ATOMIC_PREDICATE then
        head.name ++ "[" ++ joinComma (canonicalTexts args) ++ "]"
      else if pt = PREDICATE_COMPREHENSION then
        "\x7b" ++ head.name ++ ";" ++ joinComma (canonicalTexts args) ++ "\x7d"
      else if pt = PREDICATE_EXPRESSION then
        "\x7b" ++ head.name ++ ":" ++ joinComma (canonicalTexts args) ++ "\x7d"
      else ""
  | .ofQuantified q v arg _ =>
      q.name ++ "$" ++ v.name.name ++ ":" ++ canonicalText arg ++ ":"
/-- The canonical texts of the particles of a list, in order. -/
def canonicalTexts : List Particle → List String
  | [] => []
  | a :: as => canonicalText a :: canonicalTexts as
end

/-- The particles obtainable from `BasicParticleSource`: the result of each of
its operations, applied to strings and to particles that were obtained from the
source. -/
inductive Built : Particle → Prop where
  | variableName (s : String) : Built (.ofName (GetVariableName s))
  | functionName (s : String) : Built (.ofName (GetFunctionName s))
  | predicateName (s : String) : Built (.ofName (GetPredicateName s))
  | operator (s : String) : Built (.ofName (GetOperator s))
  | quantifier (s : String) : Built (.ofName (GetQuantifier s))
  | name (k : ParticleType) (s : String) (n : BasicName) :
      GetName k s = .ok n → Built (.ofName n)
  | variableNamed (s : String) : Built (.ofVariable (GetVariableNamed s))
  | var (n : BasicName) (v : BasicVariable) :
      Built (.ofName n) → GetVariable n = .ok v → Built (.ofVariable v)
  | functionExpression (head : BasicName) (args : List Particle) (p : Particle) :
      Built (.ofName head) → (∀ a, a ∈ args → Built a) →
      GetFunctionExpression head args = .ok p → Built p
  | atomicPredicate (head : BasicName) (args : List Particle) (p : Particle) :
      Built (.ofName head) → (∀ a, a ∈ args → Built a) →
      GetAtomicPredicate head args = .ok p → Built p
  | predicateExpression (head : BasicName) (args : List Particle) (p : Particle) :
      Built (.ofName head) → (∀ a, a ∈ args → Built a) →
      GetPredicateExpression head args = .ok p → Built p
  | predicateComprehension (head : BasicName) (args : List Particle) (p : Particle) :
      Built (.ofName head) → (∀ a, a ∈ args → Built a) →
      GetPredicateComprehension head args = .ok p → Built p
  | tuple (k : ParticleType) (head : BasicName) (args : List Particle) (p : Particle) :
      Built (.ofName head) → (∀ a, a ∈ args → Built a) →
      GetTuple k head args = .ok p → Built p
  | quantifiedTerm (q : BasicName) (v : BasicVariable) (arg p : Particle) :
      Built (.ofName q) → Built (.ofVariable v) → Built arg →
      GetQuantifiedTerm q v arg = .ok p → Built p
  | quantifiedPredicate (q : BasicName) (v : BasicVariable) (arg p : Particle) :
      Built (.ofName q) → Built (.ofVariable v) → Built arg →
      GetQuantifiedPredicate q v arg = .ok p → Built p
  | get (k : ParticleType) (parts : List Particle) (p : Particle) :
      (∀ a, a ∈ parts → Built a) → Get k parts = .ok p → Built p

mutual
/-- Well-formedness at every node: a name has one of the five name kinds; a
variable wraps a name of kind `VARIABLE_NAME`; the head and the arguments of a
tuple have the kind and the classification of the table row of the kind of the
tuple; a quantified particle has kind `QUANTIFIED_TERM` or
`QUANTIFIED_PREDICATE`, a quantifier of kind `QUANTIFIER`, a well-formed
variable and a Predicate body. -/
def WellFormed : Particle → Bool
  | .ofName n =>
      decide (n.ptype = VARIABLE_NAME) || decide (n.ptype = FUNCTION_NAME) ||
        decide (n.ptype = PREDICATE_NAME) || decide (n.ptype = OPERATOR) ||
        decide (n.ptype = QUANTIFIER)
  | .ofVariable v => decide (v.name.ptype = VARIABLE_NAME)
  | .ofTuple head args pt =>
      ((decide (pt = FUNCTION_EXPRESSION) && decide (head.ptype = FUNCTION_NAME) &&
          args.all Particle.Term) ||
        (decide (pt = ATOMIC_PREDICATE) && decide (head.ptype = PREDICATE_NAME) &&
          args.all Particle.Term) ||
        (decide (pt = PREDICATE_COMPREHENSION) && decide (head.ptype = OPERATOR) &&
          args.all Particle.Predicate) ||
        (decide (pt = PREDICATE_EXPRESSION) && decide (head.ptype = OPERATOR) &&
          args.all Particle.Predicate)) &&
        WellFormedAll args
  | .ofQuantified q v arg pt =>
      (decide (pt = QUANTIFIED_TERM) || decide (pt = QUANTIFIED_PREDICATE)) &&
        decide (q.ptype = QUANTIFIER) && decide (v.name.ptype = VARIABLE_NAME) &&
        arg.Predicate && WellFormed arg
/-- Well-formedness of every particle of a list. -/
def WellFormedAll : List Particle → Bool
  | [] => true
  | a :: as => WellFormed a && WellFormedAll as
end

/-- An embedded `LogicReader` that accepts no rune in an identifier and reads no
term. -/
def rejectAll : EmbeddedReader :=
  { ReadTerm := fun _ inp => (none, some "no term", inp),
    IdentifierStart := fun _ => false,
    IdentifierPart := fun _ => false }


/-! ## The dispatcher as the specification describes it -/

/-- The dispatcher of the specification, by kind: a variable from exactly one
part that is a name, through `GetVariable`; a tuple of each of the four tuple
kinds from a first part that is a name and the remaining parts, through
`GetTuple`; a quantified particle of each of the two kinds from exactly three
parts, a name, a variable and a body, through `GetQuantifiedTerm` or
`GetQuantifiedPredicate`; a failure, here `none`, in every other case and for
every other kind. -/
def GetBySpec (ptype : ParticleType) (parts : List Particle) : Option Particle :=
  if ptype = VARIABLE then
    match parts with
    | [.ofName n] => (GetVariable n).toOption.map Particle.ofVariable
    | _ => none
  else if ptype = FUNCTION_EXPRESSION ∨ ptype = ATOMIC_PREDICATE ∨
      ptype = PREDICATE_COMPREHENSION ∨ ptype = PREDICATE_EXPRESSION then
    match parts with
    | .ofName head :: args => (GetTuple ptype head args).toOption
    | _ => none
  else if ptype = QUANTIFIED_TERM then
    match parts with
    | [.ofName q, .ofVariable v, body] => (GetQuantifiedTerm q v body).toOption
    | _ => none
  else if ptype = QUANTIFIED_PREDICATE then
    match parts with
    | [.ofName q, .ofVariable v, body] => (GetQuantifiedPredicate q v body).toOption
    | _ => none
  else none


/-- An embedded `LogicReader` whose identifiers start with a letter and go on
with letters and digits, and that reads no term. -/
def lettersAndDigits : EmbeddedReader :=
  { ReadTerm := fun _ inp => (none, some "no term", inp),
    IdentifierStart := Char.isAlpha,
    IdentifierPart := Char.isAlphanum }


end Logic

/-! ## Arithmetic of the hash combinators -/

namespace Logic

theorem u64_lt (n : Nat) : u64 n < 18446744073709551616 :=
  Nat.mod_lt _ (by norm_num)

theorem xor_lt_u64 (x k : Nat) (hx : x < 18446744073709551616)
    (hk : k < 18446744073709551616) : x ^^^ k < 18446744073709551616 := by
  have e : (18446744073709551616 : Nat) = 2 ^ 64 := by norm_num
  rw [e] at hx hk ⊢
  exact Nat.xor_lt_two_pow hx hk

theorem u64_mul_eleven_injective (a b : Nat) (ha : a < 18446744073709551616)
    (hb : b < 18446744073709551616) (h : u64 (a * 11) = u64 (b * 11)) : a = b := by
  have h1 : a * 11 ≡ b * 11 [MOD 18446744073709551616] := h
  have h2 : a ≡ b [MOD 18446744073709551616] :=
    Nat.ModEq.cancel_right_of_coprime (by norm_num) h1
  have h3 : a % 18446744073709551616 = b % 18446744073709551616 := h2
  rwa [Nat.mod_eq_of_lt ha, Nat.mod_eq_of_lt hb] at h3

/-- The hashes of `{s:}` and of `s[]` differ for every string hash: the heads
differ in kind only, and neither the xor with the kind nor the product with 11
loses that difference. -/
theorem hash_emptyExpression_ne_emptyAtom (HashString : String → Nat) (s : String) :
    u64 (BasicName.Hash HashString (GetOperator s) * 11) ≠
      u64 (BasicName.Hash HashString (GetPredicateName s) * 11) := by
  intro h
  have e5 : u64OfInt OPERATOR = 5 := by decide
  have e4 : u64OfInt PREDICATE_NAME = 4 := by decide
  simp only [BasicName.Hash, GetOperator, GetPredicateName, e5, e4] at h
  have hx := u64_lt (HashString s)
  have h' := u64_mul_eleven_injective _ _ (xor_lt_u64 _ 5 hx (by norm_num))
    (xor_lt_u64 _ 4 hx (by norm_num)) h
  have := Nat.xor_right_injective h'
  omega

theorem Hash_unaryExpression_emptyExpression (HashString : String → Nat) (FNV_PRIME : Nat)
    (fuel : Nat) (s : String) :
    Hash HashString FNV_PRIME (fuel + 3) (unaryExpression s (emptyExpression s)) = some 0 := by
  simp [Hash, unaryExpression, emptyExpression, hashStep, u64]

theorem Hash_unaryExpression_emptyAtom (HashString : String → Nat) (FNV_PRIME : Nat)
    (fuel : Nat) (s : String) :
    Hash HashString FNV_PRIME (fuel + 3) (unaryExpression s (emptyAtom s)) =
      some (u64 (BasicName.Hash HashString (GetOperator s) * 11) ^^^
        u64 (BasicName.Hash HashString (GetPredicateName s) * 11)) := by
  simp [Hash, unaryExpression, emptyAtom, hashStep, u64]

/-! ## Particle source: GetName and GetTuple -/

/-- C5: `GetName(PREDICATE_NAME, s)` goes through `GetFunctionName`: for every
string `s` the name it returns has kind `FUNCTION_NAME`, not the requested
`PREDICATE_NAME`. -/
theorem GetName_predicate_name_returns_function_name (s : String) :
    GetName PREDICATE_NAME s = .ok { name := s, ptype := FUNCTION_NAME } ∧
      (GetFunctionName s).ptype ≠ PREDICATE_NAME := by
  constructor
  · rfl
  · simp [GetFunctionName]

/-- C4: `GetTuple(FUNCTION_EXPRESSION, head, args)` is `GetAtomicPredicate(head,
args)`: with a function-name head it panics for every argument list, and with a
predicate-name head and no argument it returns an atomic predicate, which is
not a Term. -/
theorem GetTuple_function_expression_is_GetAtomicPredicate (f : String)
    (args : List Particle) :
    GetTuple FUNCTION_EXPRESSION (GetFunctionName f) args =
        .error "name is not a predicate name" ∧
      GetTuple FUNCTION_EXPRESSION (GetPredicateName f) [] =
        .ok (.ofTuple (GetPredicateName f) [] ATOMIC_PREDICATE) ∧
      (Particle.ofTuple (GetPredicateName f) [] ATOMIC_PREDICATE).Term = false := by
  refine ⟨?_, ?_, ?_⟩
  · simp [GetTuple, GetAtomicPredicate, GetFunctionName]
  · rfl
  · rfl

/-! ## Equals and Hash of tuples -/

/-- C2: the tuples `{o:{o:}}` and `{o:o[]}` come from the source, have the same
kind and different hashes for every string hash, their arguments are not equal
(`{o:}.Equals(o[])` is false), and `BasicTuple.Equals` reports them equal. -/
theorem Equals_true_on_hash_mismatch (HashString : String → Nat) (FNV_PRIME : Nat)
    (fuel : Nat) :
    GetPredicateExpression (GetOperator "o") [emptyExpression "o"] =
        .ok (unaryExpression "o" (emptyExpression "o")) ∧
      GetPredicateExpression (GetOperator "o") [emptyAtom "o"] =
        .ok (unaryExpression "o" (emptyAtom "o")) ∧
      Hash HashString FNV_PRIME (fuel + 3) (unaryExpression "o" (emptyExpression "o")) ≠
        Hash HashString FNV_PRIME (fuel + 3) (unaryExpression "o" (emptyAtom "o")) ∧
      Equals HashString FNV_PRIME distinctObjects (fuel + 3) (emptyExpression "o") (emptyAtom "o") =
        some (.ok false) ∧
      Equals HashString FNV_PRIME distinctObjects (fuel + 3) (unaryExpression "o" (emptyExpression "o"))
        (unaryExpression "o" (emptyAtom "o")) = some (.ok true) := by
  have hne := hash_emptyExpression_ne_emptyAtom HashString "o"
  have h1 := Hash_unaryExpression_emptyExpression HashString FNV_PRIME fuel "o"
  have h2 := Hash_unaryExpression_emptyAtom HashString FNV_PRIME fuel "o"
  have hx : (0 : Nat) ≠ u64 (BasicName.Hash HashString (GetOperator "o") * 11) ^^^
      u64 (BasicName.Hash HashString (GetPredicateName "o") * 11) := by
    intro h
    exact hne (Nat.xor_eq_zero.mp h.symm)
  refine ⟨rfl, rfl, ?_, ?_, ?_⟩
  · rw [h1, h2]
    intro h
    exact hx (Option.some.inj h)
  · simp [Equals, emptyExpression, emptyAtom, Particle.Kind]
  · unfold unaryExpression at h1 h2 ⊢
    unfold Equals
    simp only [h1, h2]
    simp [Particle.Kind, distinctObjects, hx]

/-- C3: the tuples `{p:{p:}}` and `{p:p[]}` come from the source, `Equals`
reports them equal, and `Hash` returns 0 for the first and a value other than 0
for the second, for every string hash. -/
theorem Equals_true_with_different_Hash (HashString : String → Nat) (FNV_PRIME : Nat)
    (fuel : Nat) :
    GetPredicateExpression (GetOperator "p") [emptyExpression "p"] =
        .ok (unaryExpression "p" (emptyExpression "p")) ∧
      GetPredicateExpression (GetOperator "p") [emptyAtom "p"] =
        .ok (unaryExpression "p" (emptyAtom "p")) ∧
      Equals HashString FNV_PRIME distinctObjects (fuel + 3) (unaryExpression "p" (emptyExpression "p"))
        (unaryExpression "p" (emptyAtom "p")) = some (.ok true) ∧
      Hash HashString FNV_PRIME (fuel + 3) (unaryExpression "p" (emptyExpression "p")) = some 0 ∧
      ∃ h, Hash HashString FNV_PRIME (fuel + 3) (unaryExpression "p" (emptyAtom "p")) = some h ∧
        h ≠ 0 := by
  have hne := hash_emptyExpression_ne_emptyAtom HashString "p"
  have h1 := Hash_unaryExpression_emptyExpression HashString FNV_PRIME fuel "p"
  have h2 := Hash_unaryExpression_emptyAtom HashString FNV_PRIME fuel "p"
  have hx : u64 (BasicName.Hash HashString (GetOperator "p") * 11) ^^^
      u64 (BasicName.Hash HashString (GetPredicateName "p") * 11) ≠ 0 := by
    intro h
    exact hne (Nat.xor_eq_zero.mp h)
  refine ⟨rfl, rfl, ?_, h1, _, h2, hx⟩
  unfold unaryExpression at h1 h2 ⊢
  unfold Equals
  simp only [h1, h2]
  simp [Particle.Kind, distinctObjects, Ne.symm hx]

/-! ## StandardWriter -/

/-- C6, as stated: `Write` returns no error for the formula of `TestIO`, and the
text it emits is not `A$x:{->:Foo[$x],=[$x,$y]}`. -/
theorem Write_testFormula_not_stated_text :
    ∃ out, written testFormula = .ok (out, none) ∧
      out ≠ "A$x:\x7b->:Foo[$x],=[$x,$y]\x7d" :=
  ⟨"A$x:\x7b->:Foo[$x],=[$x,$y]\x7d:", rfl, by decide⟩

/-- C6, amended: the construction of `TestIO` succeeds, and `Write` returns no
error and emits exactly `A$x:{->:Foo[$x],=[$x,$y]}:` for it, the text of the
claim followed by the `:` that closes a quantified particle. -/
theorem Write_testFormula :
    testFormula = .ok (.ofQuantified (GetQuantifier "A") (GetVariableNamed "x")
        (.ofTuple (GetOperator "->")
          [.ofTuple (GetPredicateName "Foo") [.ofVariable (GetVariableNamed "x")]
              ATOMIC_PREDICATE,
            .ofTuple (GetPredicateName "=")
              [.ofVariable (GetVariableNamed "x"), .ofVariable (GetVariableNamed "y")]
              ATOMIC_PREDICATE]
          PREDICATE_EXPRESSION) QUANTIFIED_PREDICATE) ∧
      written testFormula = .ok ("A$x:\x7b->:Foo[$x],=[$x,$y]\x7d:", none) :=
  ⟨rfl, rfl⟩

/-- C9: a function-expression whose argument has kind `NAME`, or a kind outside
the thirteen constants, is written as `f()` and `Write` returns no error; the
same node at the root is an error. -/
theorem Write_drops_error_of_argument :
    Write (.ofTuple (GetFunctionName "f") [.ofName { name := "n", ptype := NAME }]
        FUNCTION_EXPRESSION) "" = .ok ("f()", none) ∧
      Write (.ofTuple (GetFunctionName "f") [.ofName { name := "n", ptype := 99 }]
        FUNCTION_EXPRESSION) "" = .ok ("f()", none) ∧
      Write (.ofName { name := "n", ptype := NAME }) "" =
        .ok ("", some "attempt to write invalid particle type") :=
  ⟨rfl, rfl, rfl⟩

/-! ## StandardReader without a lexical policy -/

theorem Outcome.bind_panics {α β : Type} {x : Outcome α}
    (f : α → StandardReader → List Char → Outcome β) (h : x.Panics) : (x.bind f).Panics := by
  cases x <;> simp_all [Outcome.bind, Outcome.Panics]

theorem NextIdentifier_panics (sr : StandardReader) (inp : List Char) (h : NoPolicy sr) :
    (NextIdentifier sr inp).Panics := by
  obtain ⟨h1, h2⟩ := h
  cases inp <;> simp [NextIdentifier, NextIdentifierLoop, h1, h2, Error, Outcome.Panics]

theorem NextString_panics_or_ret (sr : StandardReader) (inp : List Char) (expect : String) :
    (NextString sr inp expect).Panics ∨
      ∃ sr1 inp1, NextString sr inp expect = .ret expect sr1 inp1 ∧
        sr1.LogicReader = sr.LogicReader ∧ sr1.cIdentifier = sr.cIdentifier := by
  unfold NextString
  dsimp only
  split_ifs <;> first
    | exact Or.inl trivial
    | exact Or.inr ⟨_, _, rfl, rfl, rfl⟩

theorem NextWSLoop_keeps (inp : List Char) :
    ∀ (sr : StandardReader) (k : Int),
      (NextWSLoop sr inp k).2.1.LogicReader = sr.LogicReader ∧
        (NextWSLoop sr inp k).2.1.cIdentifier = sr.cIdentifier := by
  induction inp with
  | nil => intro sr k; simp [NextWSLoop]
  | cons c rest ih =>
      intro sr k
      unfold NextWSLoop
      split_ifs
      · simp
      · have := ih { sr with pos := sr.pos + 1, col := 1, line := sr.line + 1 } (k + 1)
        simpa using this
      · have := ih { sr with pos := sr.pos + 1, col := sr.col + 1 } (k + 1)
        simpa using this

theorem NextWS_keeps (sr : StandardReader) (inp : List Char) (h : NoPolicy sr) :
    NoPolicy (NextWS sr inp).2.1 := by
  have := NextWSLoop_keeps inp sr 0
  exact ⟨this.1.trans h.1, this.2.trans h.2⟩

/-- After `NextString`, a reader without lexical policy panics in whatever step
starts with `NextIdentifier`, directly or after `NextWS`. -/
theorem NextString_bind_panics {β : Type} (sr : StandardReader) (inp : List Char)
    (expect : String) (h : NoPolicy sr)
    (f : String → StandardReader → List Char → Outcome β)
    (hf : ∀ e sr1 inp1, NoPolicy sr1 → (f e sr1 inp1).Panics) :
    ((NextString sr inp expect).bind f).Panics := by
  rcases NextString_panics_or_ret sr inp expect with hp | ⟨sr1, inp1, he, h1, h2⟩
  · exact Outcome.bind_panics f hp
  · rw [he]
    exact hf expect sr1 inp1 ⟨h1.trans h.1, h2.trans h.2⟩

/-- Without a lexical policy the body of `ReadParticle` panics for each kind of
its `switch`, and returns `nil, nil` for every other kind. -/
theorem ReadParticleBody_no_policy
    (rd : StandardReader → ParticleSource → List Char → Option ReadResult) (fuel : Nat)
    (sr : StandardReader) (source : ParticleSource) (ptype : ParticleType) (inp : List Char)
    (h : NoPolicy sr) :
    (ReadParticleBody rd fuel sr source ptype inp).Panics ∨
      ReadParticleBody rd fuel sr source ptype inp = .ret none sr inp := by
  unfold ReadParticleBody
  split_ifs
  · left
    exact NextString_bind_panics sr inp _ h _ fun _ sr1 inp1 h1 =>
      Outcome.bind_panics _ (NextIdentifier_panics sr1 inp1 h1)
  · left
    exact NextString_bind_panics sr inp _ h _ fun _ sr1 inp1 h1 =>
      Outcome.bind_panics _ (NextIdentifier_panics sr1 inp1 h1)
  · left
    exact Outcome.bind_panics _ (NextIdentifier_panics sr inp h)
  · left
    exact Outcome.bind_panics _ (NextIdentifier_panics sr inp h)
  · left
    exact NextString_bind_panics sr inp _ h _ fun _ sr1 inp1 h1 =>
      Outcome.bind_panics _ (NextIdentifier_panics _ _ (NextWS_keeps sr1 inp1 h1))
  · left
    exact Outcome.bind_panics _ (NextIdentifier_panics sr inp h)
  · left
    exact Outcome.bind_panics _ (NextIdentifier_panics sr inp h)
  · right
    rfl

theorem recovered_of_panics (x : Outcome (Option Particle)) (h : x.Panics) :
    ∃ r, recovered x = some r ∧ r.rp = none ∧ r.re ≠ none := by
  cases x <;> simp_all [recovered, Outcome.Panics]

theorem NoPolicy_GetStandardReader : NoPolicy GetStandardReader := ⟨rfl, rfl⟩

/-! ## StandardReader with any lexical policy -/

theorem NextWS_nil (sr : StandardReader) : NextWS sr [] = (0, sr, []) := rfl

theorem NextWS_not_space (sr : StandardReader) (c : Char) (rest : List Char)
    (h : IsSpace c = false) : NextWS sr (c :: rest) = (0, sr, c :: rest) := by
  simp [NextWS, NextWSLoop, h]

theorem NextString_panics_at_end (sr : StandardReader) (expect : String)
    (hs : sr.cString = "") (he : expect.length = 1) : (NextString sr [] expect).Panics := by
  unfold NextString
  simp [hs, he, Error, Outcome.Panics]

theorem NextString_panics_on_other (sr : StandardReader) (c d : Char) (rest : List Char)
    (hs : sr.cString = "") (h : c ≠ d) :
    (NextString sr (c :: rest) (String.singleton d)).Panics := by
  have hl : (String.singleton d).length = 1 := rfl
  have hne : String.mk [c] ≠ String.singleton d := by
    intro e
    have e2 : [c] = [d] := congrArg String.data e
    exact h (List.head_eq_of_cons_eq e2)
  unfold NextString
  simp [hs, hl, hne, Error, Outcome.Panics]

theorem Outcome.bind_ret {α β : Type} (a : α) (sr : StandardReader) (inp : List Char)
    (f : α → StandardReader → List Char → Outcome β) :
    (Outcome.ret a sr inp).bind f = f a sr inp := rfl

theorem ReadDelimitedTermList_panics (fuel : Nat) (sr : StandardReader) (inp : List Char)
    (ldelim rdelim : Char) (h : (NextString sr inp (String.singleton ldelim)).Panics) :
    (ReadDelimitedTermList fuel sr inp ldelim rdelim).Panics :=
  Outcome.bind_panics _ h

/-- Once `NextIdentifier` holds a rune, it either panics (at the first rune that
`IdentifierPart` rejects) or reads the whole input. -/
theorem NextIdentifierLoop_panics_or_reads_all (lr : EmbeddedReader) (inp : List Char) :
    ∀ (sr : StandardReader) (id : List Char), sr.LogicReader = some lr → id ≠ [] →
      sr.cString = "" →
      (NextIdentifierLoop sr id inp).Panics ∨
        ∃ sr1, NextIdentifierLoop sr id inp = .ret (String.mk (id ++ inp)) sr1 [] ∧
          sr1.cString = "" := by
  induction inp with
  | nil =>
      intro sr id _ hid hs
      right
      refine ⟨sr, ?_, hs⟩
      have : id.length ≠ 0 := fun h => hid (List.length_eq_zero.mp h)
      simp [NextIdentifierLoop, this]
  | cons c rest ih =>
      intro sr id hlr hid hs
      have hlen : id.length ≠ 0 := fun h => hid (List.length_eq_zero.mp h)
      unfold NextIdentifierLoop
      simp only [hlr, hlen, if_false]
      cases hp : lr.IdentifierPart c
      · left
        simp [Outcome.Panics]
      · have := ih { sr with pos := sr.pos + 1, col := sr.col + 1 } (id ++ [c]) hlr
          (by simp) hs
        simpa [hlr] using this

/-- Whatever the embedded reader is, `ReadPredicate` returns a `nil` particle and
an error on a text whose first rune is no space, no opening brace and no opening
bracket: it tries the atomic predicate only, whose identifier either stays empty,
so that the first rune is read where the bracket has to be, or panics at the
first rejected rune, or takes the whole text. -/
theorem ReadPredicate_fails_on_other_start (fuel : Nat) (sr : StandardReader)
    (source : ParticleSource) (c : Char) (rest : List Char) (hs : sr.cString = "")
    (hi : sr.cIdentifier = "") (h1 : c ≠ Char.ofNat 123) (h2 : c ≠ '[')
    (h3 : IsSpace c = false) :
    ∃ r, ReadPredicate (fuel + 1) sr source (c :: rest) = some r ∧ r.rp = none ∧
      r.re ≠ none := by
  have hpeek : TestPeek (c :: rest) (Char.ofNat 123) = false := by
    simp [TestPeek, Ne.symm h1]
  unfold ReadPredicate
  simp only [hpeek]
  apply recovered_of_panics
  unfold ReadParticleBody
  simp only [ATOMIC_PREDICATE, VARIABLE, VARIABLE_NAME, FUNCTION_NAME, PREDICATE_NAME, OPERATOR,
    FUNCTION_EXPRESSION]
  norm_num
  cases hlr : sr.LogicReader with
  | none => exact Outcome.bind_panics _ (NextIdentifier_panics sr _ ⟨hlr, hi⟩)
  | some lr =>
      cases hst : lr.IdentifierStart c
      · have e : NextIdentifier sr (c :: rest) = .ret (String.mk []) sr (c :: rest) := by
          simp [NextIdentifier, NextIdentifierLoop, hi, hlr, hst]
        rw [e, Outcome.bind_ret]
        simp only [NextWS_not_space sr c rest h3]
        exact Outcome.bind_panics _ (ReadDelimitedTermList_panics fuel sr _ '[' ']'
          (NextString_panics_on_other sr c '[' rest hs h2))
      · have e : NextIdentifier sr (c :: rest) = NextIdentifierLoop
            { sr with pos := sr.pos + 1, col := sr.col + 1 } [c] rest := by
          simp [NextIdentifier, NextIdentifierLoop, hi, hlr, hst]
        rw [e]
        rcases NextIdentifierLoop_panics_or_reads_all lr rest
            { sr with pos := sr.pos + 1, col := sr.col + 1 } [c] hlr (by simp) hs with
          hp | ⟨sr1, hr, hs1⟩
        · exact Outcome.bind_panics _ hp
        · rw [hr, Outcome.bind_ret]
          simp only [NextWS_nil]
          exact Outcome.bind_panics _ (ReadDelimitedTermList_panics fuel sr1 _ '[' ']'
            (NextString_panics_at_end sr1 _ hs1 rfl))

/-- C1: the reader of `GetStandardReader` returns a `nil` particle from
`ReadParticle` and from `ReadPredicate` for every kind, source and text.  For the
atomic predicate `Foo[$x]` of the source `Write` emits `Foo[$x]`, and
`ReadPredicate` on that text returns the error ` at 0:0 (pos=0)`: the call of
`IdentifierStart` on the first rune panics.  With any embedded `LogicReader` in
place of the `nil` one, `ReadPredicate` on that text still returns a `nil`
particle and an error. -/
theorem standard_reader_returns_no_particle (fuel : Nat) (source : ParticleSource)
    (ptype : ParticleType) (inp : List Char) (policy : Option EmbeddedReader) :
    (∃ r, ReadParticle fuel GetStandardReader source ptype inp = some r ∧ r.rp = none) ∧
      (∃ r, ReadPredicate (fuel + 1) GetStandardReader source inp = some r ∧ r.rp = none) ∧
      written (GetAtomicPredicate (GetPredicateName "Foo") [.ofVariable (GetVariableNamed "x")])
        = .ok ("Foo[$x]", none) ∧
      ReadPredicate (fuel + 1) GetStandardReader CreateBasicParticleSource "Foo[$x]".toList =
        some { rp := none, re := some " at 0:0 (pos=0)", sr := GetStandardReader,
               inp := "oo[$x]".toList } ∧
      ∃ r, ReadPredicate (fuel + 1) { GetStandardReader with LogicReader := policy } source
          "Foo[$x]".toList = some r ∧ r.rp = none ∧ r.re ≠ none := by
  have key : ∀ k, ∃ r, ReadParticle fuel GetStandardReader source k inp = some r ∧
      r.rp = none := by
    intro k
    unfold ReadParticle
    rcases ReadParticleBody_no_policy (ReadPredicate fuel) fuel GetStandardReader source k inp
      NoPolicy_GetStandardReader with hp | hr
    · obtain ⟨r, h1, h2, _⟩ := recovered_of_panics _ hp
      exact ⟨r, h1, h2⟩
    · rw [hr]
      exact ⟨_, rfl, rfl⟩
  refine ⟨key ptype, ?_, rfl, rfl,
    ReadPredicate_fails_on_other_start fuel { GetStandardReader with LogicReader := policy }
      source 'F' "oo[$x]".toList rfl rfl (by decide) (by decide) (by decide)⟩
  unfold ReadPredicate
  split_ifs
  · exact key PREDICATE_EXPRESSION
  · exact key ATOMIC_PREDICATE

/-- C7: on the text `A$x:{->:Foo[$x],=[$x,$y]}` the reader of `GetStandardReader`
reads the rune `A`, panics in the call of `IdentifierStart`, and `ReadPredicate`
returns a `nil` particle with the error ` at 0:0 (pos=0)`.  With any embedded
`LogicReader` in place of the `nil` one the result is still a `nil` particle and
an error: `ReadPredicate` tries the atomic predicate only. -/
theorem ReadPredicate_test_text_is_error (fuel : Nat) (policy : Option EmbeddedReader)
    (source : ParticleSource) :
    ReadPredicate (fuel + 1) GetStandardReader CreateBasicParticleSource
        "A$x:\x7b->:Foo[$x],=[$x,$y]\x7d".toList =
      some { rp := none, re := some " at 0:0 (pos=0)", sr := GetStandardReader,
             inp := "$x:\x7b->:Foo[$x],=[$x,$y]\x7d".toList } ∧
      ∃ r, ReadPredicate (fuel + 1) { GetStandardReader with LogicReader := policy } source
          "A$x:\x7b->:Foo[$x],=[$x,$y]\x7d".toList = some r ∧ r.rp = none ∧ r.re ≠ none :=
  ⟨rfl, ReadPredicate_fails_on_other_start fuel { GetStandardReader with LogicReader := policy }
    source 'A' "$x:\x7b->:Foo[$x],=[$x,$y]\x7d".toList rfl rfl (by decide) (by decide)
    (by decide)⟩

/-- C8: on the text `Foo[$x`, six runes long, `ReadPredicate` of the reader of
`GetStandardReader` returns a `nil` particle and an error, and the position it
reports is 0, the start of the input: the message is ` at 0:0 (pos=0)`. -/
theorem ReadPredicate_missing_bracket_reports_start (fuel : Nat) :
    ReadPredicate (fuel + 1) GetStandardReader CreateBasicParticleSource "Foo[$x".toList =
        some { rp := none, re := some " at 0:0 (pos=0)", sr := GetStandardReader,
               inp := "oo[$x".toList } ∧
      GetStandardReader.pos = 0 ∧ "Foo[$x".toList.length = 6 :=
  ⟨rfl, rfl, rfl⟩

/-- C10: for the kinds `QUANTIFIER` and `NAME` and for the out-of-range kind 13,
`ReadParticle` returns a `nil` particle and a `nil` error, for every reader,
source and input, and reads nothing. -/
theorem ReadParticle_returns_nil_nil (fuel : Nat) (sr : StandardReader)
    (source : ParticleSource) (inp : List Char) :
    ReadParticle fuel sr source QUANTIFIER inp =
        some { rp := none, re := none, sr := sr, inp := inp } ∧
      ReadParticle fuel sr source NAME inp =
        some { rp := none, re := none, sr := sr, inp := inp } ∧
      ReadParticle fuel sr source 13 inp =
        some { rp := none, re := none, sr := sr, inp := inp } :=
  ⟨rfl, rfl, rfl⟩

/-! ## NamePrefix and the hash of a variable -/

/-- C11: `NamePrefix` returns `var`, `func`, `pred` and `quant` for the kinds
`VARIABLE_NAME`, `FUNCTION_NAME`, `PREDICATE_NAME` and `QUANTIFIER`, and the
empty string for `OPERATOR`, while `Write` emits the prefix `op` for an operator
name. -/
theorem NamePrefix_of_operator_is_empty (s out : String) :
    NamePrefix VARIABLE_NAME = "var" ∧ NamePrefix FUNCTION_NAME = "func" ∧
      NamePrefix PREDICATE_NAME = "pred" ∧ NamePrefix QUANTIFIER = "quant" ∧
      NamePrefix OPERATOR = "" ∧
      Write (.ofName (GetOperator s)) out = .ok (out ++ ("'op:" ++ s ++ "'"), none) :=
  ⟨rfl, rfl, rfl, rfl, rfl, rfl⟩

/-- C12: `Hash` of a variable returns no value, whatever the fuel: the method
calls itself on the same variable. -/
theorem Hash_of_variable_never_returns (HashString : String → Nat) (FNV_PRIME : Nat)
    (fuel : Nat) (v : BasicVariable) :
    Hash HashString FNV_PRIME fuel (.ofVariable v) = none := by
  induction fuel with
  | zero => simp [Hash]
  | succ n ih => simp [Hash, ih]

/-! ## The builders of the particle source -/

theorem copyArgs_of_all (ok : Particle → Bool) (pre post : String) (l : List Particle) :
    ∀ i, l.all ok = true → copyArgs ok pre post i l = .ok l := by
  induction l with
  | nil => intro i _; rfl
  | cons p ps ih =>
      intro i h
      rw [List.all_cons, Bool.and_eq_true] at h
      unfold copyArgs
      rw [ih (i + 1) h.2]
      simp [h.1, Except.map]

theorem copyArgs_of_not_all (ok : Particle → Bool) (pre post : String) (l : List Particle) :
    ∀ i, l.all ok = false → ∃ e, copyArgs ok pre post i l = .error e := by
  induction l with
  | nil => intro i h; simp at h
  | cons p ps ih =>
      intro i h
      unfold copyArgs
      cases hp : ok p
      · exact ⟨pre ++ toString (i + 1) ++ post, by simp⟩
      · have hps : ps.all ok = false := by
          rw [List.all_cons, hp, Bool.true_and] at h
          exact h
        obtain ⟨e, he⟩ := ih (i + 1) hps
        exact ⟨e, by simp [he, Except.map]⟩

/-- The copying loop followed by the struct literal of a builder: the tuple with
the arguments as given when all of them pass, a panic otherwise. -/
theorem copyArgs_map_toOption (ok : Particle → Bool) (pre post : String) (head : BasicName)
    (args : List Particle) (k : ParticleType) :
    ((copyArgs ok pre post 0 args).map (fun t => Particle.ofTuple head t k)).toOption =
      if args.all ok = true then some (.ofTuple head args k) else none := by
  cases h : args.all ok
  · obtain ⟨e, he⟩ := copyArgs_of_not_all ok pre post args 0 h
    simp [he, Except.map, Except.toOption]
  · simp [copyArgs_of_all ok pre post args 0 h, Except.map, Except.toOption]

theorem Term_excludes_Predicate (b : Particle) (h : b.Term = true) : b.Predicate = false := by
  cases b with
  | ofName n => simp [Particle.Term] at h
  | ofVariable v => rfl
  | ofTuple hd args pt =>
      simp only [Particle.Term] at h
      simp only [Particle.Predicate]
      split_ifs at h ⊢ <;> simp_all
  | ofQuantified q v arg pt =>
      simp only [Particle.Term] at h
      simp only [Particle.Predicate]
      split_ifs at h ⊢ <;> simp_all

/-- The four direct tuple builders against their rows of the type table. -/
theorem tuple_builders_table (head : BasicName) (args : List Particle) (s : String) :
    (GetFunctionExpression head args).toOption =
        (if head.ptype = FUNCTION_NAME ∧ args.all Particle.Term = true then
          some (.ofTuple head args FUNCTION_EXPRESSION) else none) ∧
      (GetAtomicPredicate head args).toOption =
        (if head.ptype = PREDICATE_NAME ∧ args.all Particle.Term = true then
          some (.ofTuple head args ATOMIC_PREDICATE) else none) ∧
      (GetPredicateComprehension head args).toOption =
        (if head.ptype = OPERATOR ∧ args.all Particle.Predicate = true then
          some (.ofTuple head args PREDICATE_COMPREHENSION) else none) ∧
      (GetPredicateExpression head args).toOption =
        (if head.ptype = OPERATOR ∧ args.all Particle.Predicate = true then
          some (.ofTuple head args PREDICATE_EXPRESSION) else none) ∧
      (∀ k, (Particle.ofTuple head args k).Kind = k ∧
        (Particle.ofTuple head args k).Head = some head ∧
        (Particle.ofTuple head args k).Arguments = some args) ∧
      (Particle.ofTuple head args FUNCTION_EXPRESSION).Term = true ∧
      (Particle.ofTuple head args PREDICATE_COMPREHENSION).Term = true ∧
      (Particle.ofTuple head args ATOMIC_PREDICATE).Predicate = true ∧
      (Particle.ofTuple head args PREDICATE_EXPRESSION).Predicate = true ∧
      GetAtomicPredicate (GetFunctionName s) args = .error "name is not a predicate name" := by
  refine ⟨?_, ?_, ?_, ?_, fun k => ⟨rfl, rfl, rfl⟩, rfl, rfl, rfl, rfl, ?_⟩
  · unfold GetFunctionExpression
    by_cases hh : head.ptype = FUNCTION_NAME
    · simp only [hh, ne_eq, not_true_eq_false, if_false, copyArgs_map_toOption, true_and]
    · simp [hh, Except.toOption]
  · unfold GetAtomicPredicate
    by_cases hh : head.ptype = PREDICATE_NAME
    · simp only [hh, ne_eq, not_true_eq_false, if_false, copyArgs_map_toOption, true_and]
    · simp [hh, Except.toOption]
  · unfold GetPredicateComprehension
    by_cases hh : head.ptype = OPERATOR
    · simp only [hh, ne_eq, not_true_eq_false, if_false, copyArgs_map_toOption, true_and]
    · simp [hh, Except.toOption]
  · unfold GetPredicateExpression
    by_cases hh : head.ptype = OPERATOR
    · simp only [hh, ne_eq, not_true_eq_false, if_false, copyArgs_map_toOption, true_and]
    · simp [hh, Except.toOption]
  · simp [GetAtomicPredicate, GetFunctionName]

/-- C13: each direct tuple builder returns the tuple of its kind with the given
head and arguments exactly when the head has the kind of its table row and every
argument has the classification of its row, and panics otherwise; a
function-expression and a predicate-comprehension are Terms, an atomic predicate
and a predicate-expression are Predicates; `GetAtomicPredicate` panics on a
function-name head. -/
theorem tuple_builders_enforce_table (head : BasicName) (args : List Particle) (s : String) :
    (GetFunctionExpression head args).toOption =
        (if head.ptype = FUNCTION_NAME ∧ args.all Particle.Term = true then
          some (.ofTuple head args FUNCTION_EXPRESSION) else none) ∧
      (GetAtomicPredicate head args).toOption =
        (if head.ptype = PREDICATE_NAME ∧ args.all Particle.Term = true then
          some (.ofTuple head args ATOMIC_PREDICATE) else none) ∧
      (GetPredicateComprehension head args).toOption =
        (if head.ptype = OPERATOR ∧ args.all Particle.Predicate = true then
          some (.ofTuple head args PREDICATE_COMPREHENSION) else none) ∧
      (GetPredicateExpression head args).toOption =
        (if head.ptype = OPERATOR ∧ args.all Particle.Predicate = true then
          some (.ofTuple head args PREDICATE_EXPRESSION) else none) ∧
      (∀ k, (Particle.ofTuple head args k).Kind = k ∧
        (Particle.ofTuple head args k).Head = some head ∧
        (Particle.ofTuple head args k).Arguments = some args) ∧
      (Particle.ofTuple head args FUNCTION_EXPRESSION).Term = true ∧
      (Particle.ofTuple head args PREDICATE_COMPREHENSION).Term = true ∧
      (Particle.ofTuple head args ATOMIC_PREDICATE).Predicate = true ∧
      (Particle.ofTuple head args PREDICATE_EXPRESSION).Predicate = true ∧
      GetAtomicPredicate (GetFunctionName s) args = .error "name is not a predicate name" :=
  tuple_builders_table head args s

/-- The two quantified builders against the shape they check. -/
theorem quantified_builders_shape (q : BasicName) (v : BasicVariable) (b : Particle) :
    (GetQuantifiedTerm q v b).toOption =
        (if q.ptype = QUANTIFIER ∧ (Particle.ofVariable v).Kind = VARIABLE ∧
            b.Predicate = true then
          some (.ofQuantified q v b QUANTIFIED_TERM) else none) ∧
      (GetQuantifiedPredicate q v b).toOption =
        (if q.ptype = QUANTIFIER ∧ (Particle.ofVariable v).Kind = VARIABLE ∧
            b.Predicate = true then
          some (.ofQuantified q v b QUANTIFIED_PREDICATE) else none) ∧
      (∀ k, (Particle.ofQuantified q v b k).Kind = k ∧
        (Particle.ofQuantified q v b k).Quantifier = some q ∧
        (Particle.ofQuantified q v b k).Variable = some v ∧
        (Particle.ofQuantified q v b k).Argument = some b) ∧
      (Particle.ofQuantified q v b QUANTIFIED_TERM).Term = true ∧
      (Particle.ofQuantified q v b QUANTIFIED_TERM).Predicate = false ∧
      (Particle.ofQuantified q v b QUANTIFIED_PREDICATE).Predicate = true ∧
      (Particle.ofQuantified q v b QUANTIFIED_PREDICATE).Term = false ∧
      (if b.Term = true then (GetQuantifiedPredicate q v b).toOption else none) = none ∧
      (if b.Term = true then (GetQuantifiedTerm q v b).toOption else none) = none := by
  have hT : (GetQuantifiedTerm q v b).toOption =
      (if q.ptype = QUANTIFIER ∧ (Particle.ofVariable v).Kind = VARIABLE ∧
          b.Predicate = true then
        some (.ofQuantified q v b QUANTIFIED_TERM) else none) := by
    unfold GetQuantifiedTerm
    by_cases hq : q.ptype = QUANTIFIER <;> cases hb : b.Predicate <;>
      simp [hq, hb, Particle.Kind, Except.toOption]
  have hP : (GetQuantifiedPredicate q v b).toOption =
      (if q.ptype = QUANTIFIER ∧ (Particle.ofVariable v).Kind = VARIABLE ∧
          b.Predicate = true then
        some (.ofQuantified q v b QUANTIFIED_PREDICATE) else none) := by
    unfold GetQuantifiedPredicate
    by_cases hq : q.ptype = QUANTIFIER <;> cases hb : b.Predicate <;>
      simp [hq, hb, Particle.Kind, Except.toOption]
  refine ⟨hT, hP, fun k => ⟨rfl, rfl, rfl, rfl⟩, rfl, rfl, rfl, rfl, ?_, ?_⟩
  · by_cases ht : b.Term = true
    · rw [if_pos ht, hP]
      simp [Term_excludes_Predicate b ht]
    · rw [if_neg ht]
  · by_cases ht : b.Term = true
    · rw [if_pos ht, hT]
      simp [Term_excludes_Predicate b ht]
    · rw [if_neg ht]


/-- C14: `GetQuantifiedTerm` and `GetQuantifiedPredicate` return the quantified
particle of their kind with the given quantifier, variable and body exactly when
the quantifier has kind `QUANTIFIER`, the bound particle has kind `VARIABLE` and
the body is a Predicate, and panic otherwise; the first result is a Term, the
second a Predicate; a Term body is rejected. -/
theorem quantified_builders_enforce_shape (q : BasicName) (v : BasicVariable) (b : Particle) :
    (GetQuantifiedTerm q v b).toOption =
        (if q.ptype = QUANTIFIER ∧ (Particle.ofVariable v).Kind = VARIABLE ∧
            b.Predicate = true then
          some (.ofQuantified q v b QUANTIFIED_TERM) else none) ∧
      (GetQuantifiedPredicate q v b).toOption =
        (if q.ptype = QUANTIFIER ∧ (Particle.ofVariable v).Kind = VARIABLE ∧
            b.Predicate = true then
          some (.ofQuantified q v b QUANTIFIED_PREDICATE) else none) ∧
      (∀ k, (Particle.ofQuantified q v b k).Kind = k ∧
        (Particle.ofQuantified q v b k).Quantifier = some q ∧
        (Particle.ofQuantified q v b k).Variable = some v ∧
        (Particle.ofQuantified q v b k).Argument = some b) ∧
      (Particle.ofQuantified q v b QUANTIFIED_TERM).Term = true ∧
      (Particle.ofQuantified q v b QUANTIFIED_TERM).Predicate = false ∧
      (Particle.ofQuantified q v b QUANTIFIED_PREDICATE).Predicate = true ∧
      (Particle.ofQuantified q v b QUANTIFIED_PREDICATE).Term = false ∧
      (if b.Term = true then (GetQuantifiedPredicate q v b).toOption else none) = none ∧
      (if b.Term = true then (GetQuantifiedTerm q v b).toOption else none) = none :=
  quantified_builders_shape q v b

/-! ## Names, variables and the parts of a tuple -/

/-- C18: for a name `a` of one of the five name kinds, `a.Equals(b)` on a name
`b` returns whether `b` has the kind and the string of `a`, and `a.Equals(p)`
returns `true` for no particle `p` other than a name with the kind and the
string of `a`. -/
theorem Name_Equals_iff_same_kind_and_string (HashString : String → Nat) (FNV_PRIME : Nat)
    (same : Particle → Particle → Bool) (fuel : Nat) (a : BasicName) (p : Particle)
    (ha : IsNameKind a.ptype) :
    (∀ b : BasicName, Equals HashString FNV_PRIME same (fuel + 1) (.ofName a) (.ofName b) =
        some (.ok (decide (b.ptype = a.ptype ∧ b.name = a.name)))) ∧
      (Equals HashString FNV_PRIME same (fuel + 1) (.ofName a) p = some (.ok true) ↔
        ∃ b : BasicName, p = .ofName b ∧ b.ptype = a.ptype ∧ b.name = a.name) := by
  have hname : ∀ b : BasicName, BasicName.Equals a (.ofName b) =
      .ok (decide (b.ptype = a.ptype ∧ b.name = a.name)) := by
    intro b
    unfold BasicName.Equals
    by_cases hk : b.ptype = a.ptype
    · by_cases hs : b.name = a.name <;> simp [Particle.Kind, Particle.nameString, hk, hs]
    · simp [Particle.Kind, hk]
  constructor
  · intro b
    simp only [Equals, hname]
  · simp only [Equals, Option.some.injEq]
    constructor
    · intro h
      cases p with
      | ofName b =>
          rw [hname b] at h
          have hd : decide (b.ptype = a.ptype ∧ b.name = a.name) = true := Except.ok.inj h
          have := of_decide_eq_true hd
          exact ⟨b, rfl, this.1, this.2⟩
      | ofVariable v =>
          exfalso
          unfold BasicName.Equals at h
          have hk : (Particle.ofVariable v).Kind ≠ a.ptype := by
            simp only [Particle.Kind]
            rcases ha with h1 | h1 | h1 | h1 | h1 <;> rw [h1] <;> decide
          simp [hk] at h
      | ofTuple hd args pt =>
          exfalso
          unfold BasicName.Equals at h
          by_cases hk : (Particle.ofTuple hd args pt).Kind = a.ptype <;>
            simp [hk, Particle.nameString] at h
      | ofQuantified q v arg pt =>
          exfalso
          unfold BasicName.Equals at h
          by_cases hk : (Particle.ofQuantified q v arg pt).Kind = a.ptype <;>
            simp [hk, Particle.nameString] at h
    · rintro ⟨b, rfl, hk, hs⟩
      rw [hname b]
      simp [hk, hs]

theorem Name_Equals_iff_same_kind_and_string_witness :
    IsNameKind (GetOperator "->").ptype ∧
      (∀ b : BasicName, Equals (fun _ => 0) 0 distinctObjects 1 (.ofName (GetOperator "->"))
        (.ofName b) =
        some (.ok (decide (b.ptype = (GetOperator "->").ptype ∧
          b.name = (GetOperator "->").name)))) ∧
      (Equals (fun _ => 0) 0 distinctObjects 1 (.ofName (GetOperator "->"))
          (.ofName (GetOperator "->")) = some (.ok true) ↔
        ∃ b : BasicName, Particle.ofName (GetOperator "->") = .ofName b ∧
          b.ptype = (GetOperator "->").ptype ∧ b.name = (GetOperator "->").name) :=
  ⟨Or.inr (Or.inr (Or.inr (Or.inl rfl))),
    Name_Equals_iff_same_kind_and_string (fun _ => 0) 0 distinctObjects 0 (GetOperator "->")
      (.ofName (GetOperator "->")) (Or.inr (Or.inr (Or.inr (Or.inl rfl))))⟩

/-- C19: `GetVariable(n)` returns the variable that wraps `n` exactly when `n`
has kind `VARIABLE_NAME`, and panics otherwise; that variable has kind
`VARIABLE`, is a Term, no Predicate and no Name, its `NameParticle()` is `n` and
its `String()` the string of `n`; `GetVariableNamed(s)` is
`GetVariable(GetVariableName(s))`. -/
theorem GetVariable_wraps_variable_name (n : BasicName) (s : String) :
    (GetVariable n).toOption =
        (if n.ptype = VARIABLE_NAME then some { name := n } else none) ∧
      (Particle.ofVariable { name := n }).Kind = VARIABLE ∧
      (Particle.ofVariable { name := n }).Term = true ∧
      (Particle.ofVariable { name := n }).Predicate = false ∧
      (Particle.ofVariable { name := n }).Name = false ∧
      BasicVariable.NameParticle { name := n } = n ∧
      BasicVariable.String { name := n } = n.String ∧
      GetVariable (GetVariableName s) = .ok (GetVariableNamed s) := by
  refine ⟨?_, rfl, rfl, rfl, rfl, rfl, rfl, rfl⟩
  unfold GetVariable
  by_cases h : n.ptype = VARIABLE_NAME <;> simp [h, Except.toOption]

theorem tuple_of_builder (k : ParticleType) (head : BasicName) (args : List Particle)
    (t : Particle)
    (h : GetTuple k head args = .ok t ∨ GetFunctionExpression head args = .ok t ∨
      GetAtomicPredicate head args = .ok t ∨ GetPredicateExpression head args = .ok t ∨
      GetPredicateComprehension head args = .ok t) :
    ∃ k1, t = .ofTuple head args k1 := by
  have key := tuple_builders_table head args ""
  have hFE : GetFunctionExpression head args = .ok t → ∃ k1, t = .ofTuple head args k1 := by
    intro e
    have h1 := key.1
    rw [e] at h1
    simp only [Except.toOption] at h1
    split_ifs at h1
    exact ⟨_, (Option.some.inj h1)⟩
  have hAP : GetAtomicPredicate head args = .ok t → ∃ k1, t = .ofTuple head args k1 := by
    intro e
    have h1 := key.2.1
    rw [e] at h1
    simp only [Except.toOption] at h1
    split_ifs at h1
    exact ⟨_, (Option.some.inj h1)⟩
  have hPC : GetPredicateComprehension head args = .ok t →
      ∃ k1, t = .ofTuple head args k1 := by
    intro e
    have h1 := key.2.2.1
    rw [e] at h1
    simp only [Except.toOption] at h1
    split_ifs at h1
    exact ⟨_, (Option.some.inj h1)⟩
  have hPE : GetPredicateExpression head args = .ok t → ∃ k1, t = .ofTuple head args k1 := by
    intro e
    have h1 := key.2.2.2.1
    rw [e] at h1
    simp only [Except.toOption] at h1
    split_ifs at h1
    exact ⟨_, (Option.some.inj h1)⟩
  rcases h with h | h | h | h | h
  · unfold GetTuple at h
    split_ifs at h
    · exact hAP h
    · exact hAP h
    · exact hPE h
    · exact hPC h
  · exact hFE h
  · exact hAP h
  · exact hPE h
  · exact hPC h

/-- C20: a tuple that `GetTuple` or one of the four direct builders returns for
a head and `n` arguments has `Arity() == n` and `Length() == n+1`, its `Part(0)`
is the head and its `Part(i)`, for `1 ≤ i ≤ n`, the `i`-th argument. -/
theorem tuple_Arity_Length_Part (k : ParticleType) (head : BasicName) (args : List Particle)
    (t : Particle)
    (h : GetTuple k head args = .ok t ∨ GetFunctionExpression head args = .ok t ∨
      GetAtomicPredicate head args = .ok t ∨ GetPredicateExpression head args = .ok t ∨
      GetPredicateComprehension head args = .ok t) :
    t.Arity = some (args.length : Int) ∧ t.Length = (args.length : Int) + 1 ∧
      t.Part 0 = .ok (some (.ofName head)) ∧
      ∀ (i : Nat) (hi : i < args.length),
        t.Part ((i : Int) + 1) = .ok (some (args.get ⟨i, hi⟩)) := by
  obtain ⟨k1, rfl⟩ := tuple_of_builder k head args t h
  refine ⟨rfl, ?_, rfl, ?_⟩
  · simp only [Particle.Length]
    omega
  · intro i hi
    simp only [Particle.Part]
    have h1 : ¬ ((i : Int) + 1 = 0) := by omega
    have h2 : ¬ ((i : Int) + 1 > (args.length : Int)) := by omega
    have h3 : ¬ ((i : Int) + 1 - 1 < 0) := by omega
    have h4 : ((i : Int) + 1 - 1).toNat = i := by omega
    simp only [h1, h2, h3, if_false, h4]
    rw [List.get?_eq_get hi]

theorem tuple_Arity_Length_Part_witness :
    GetAtomicPredicate (GetPredicateName "=")
        [.ofVariable (GetVariableNamed "x"), .ofVariable (GetVariableNamed "y")] =
      .ok (.ofTuple (GetPredicateName "=")
        [.ofVariable (GetVariableNamed "x"), .ofVariable (GetVariableNamed "y")]
        ATOMIC_PREDICATE) ∧
      (Particle.ofTuple (GetPredicateName "=")
        [.ofVariable (GetVariableNamed "x"), .ofVariable (GetVariableNamed "y")]
        ATOMIC_PREDICATE).Arity = some 2 ∧
      (Particle.ofTuple (GetPredicateName "=")
        [.ofVariable (GetVariableNamed "x"), .ofVariable (GetVariableNamed "y")]
        ATOMIC_PREDICATE).Length = 2 + 1 ∧
      (Particle.ofTuple (GetPredicateName "=")
        [.ofVariable (GetVariableNamed "x"), .ofVariable (GetVariableNamed "y")]
        ATOMIC_PREDICATE).Part 0 = .ok (some (.ofName (GetPredicateName "="))) ∧
      (Particle.ofTuple (GetPredicateName "=")
        [.ofVariable (GetVariableNamed "x"), .ofVariable (GetVariableNamed "y")]
        ATOMIC_PREDICATE).Part 2 = .ok (some (.ofVariable (GetVariableNamed "y"))) := by
  have hb : GetAtomicPredicate (GetPredicateName "=")
      [.ofVariable (GetVariableNamed "x"), .ofVariable (GetVariableNamed "y")] =
      .ok (.ofTuple (GetPredicateName "=")
        [.ofVariable (GetVariableNamed "x"), .ofVariable (GetVariableNamed "y")]
        ATOMIC_PREDICATE) := rfl
  have h := tuple_Arity_Length_Part ATOMIC_PREDICATE (GetPredicateName "=")
    [.ofVariable (GetVariableNamed "x"), .ofVariable (GetVariableNamed "y")]
    (.ofTuple (GetPredicateName "=")
      [.ofVariable (GetVariableNamed "x"), .ofVariable (GetVariableNamed "y")]
      ATOMIC_PREDICATE) (Or.inr (Or.inr (Or.inl hb)))
  exact ⟨hb, h.1, h.2.1, h.2.2.1, h.2.2.2 1 (by decide)⟩

/-! ## The writer emits the canonical grammar -/

theorem WellFormedAll_iff (l : List Particle) :
    WellFormedAll l = true ↔ ∀ a, a ∈ l → WellFormed a = true := by
  induction l with
  | nil => simp [WellFormedAll]
  | cons a as ih => simp [WellFormedAll, ih]

theorem WriteSwitch_tuple (pt : ParticleType) (head : String)
    (loop : String → Except String String) (out l r o : String)
    (hpt : (pt = FUNCTION_EXPRESSION ∧ l = head ++ "(" ∧ r = ")") ∨
      (pt = ATOMIC_PREDICATE ∧ l = head ++ "[" ∧ r = "]") ∨
      (pt = PREDICATE_COMPREHENSION ∧ l = "\x7b" ++ head ++ ";" ∧ r = "\x7d") ∨
      (pt = PREDICATE_EXPRESSION ∧ l = "\x7b" ++ head ++ ":" ∧ r = "\x7d"))
    (hloop : loop (out ++ l) = .ok o) :
    WriteSwitch pt false none (some (head, loop)) none out = .ok (o ++ r, none) := by
  rcases hpt with ⟨rfl, rfl, rfl⟩ | ⟨rfl, rfl, rfl⟩ | ⟨rfl, rfl, rfl⟩ | ⟨rfl, rfl, rfl⟩ <;>
    simp [WriteSwitch, hloop, Except.map]

mutual
/-- On a well-formed particle `Write` returns no error and appends the canonical
text to the sink. -/
theorem Write_canonicalText : ∀ (p : Particle) (out : String), WellFormed p = true →
    Write p out = .ok (out ++ canonicalText p, none)
  | .ofName n, out, h => by
      simp only [WellFormed, Bool.or_eq_true, decide_eq_true_eq] at h
      rcases h with (((h | h) | h) | h) | h <;>
        simp [Write, WriteSwitch, canonicalText, canonicalPrefix, h, String.append_assoc]
  | .ofVariable v, out, _ => by
      simp [Write, WriteSwitch, canonicalText]
  | .ofTuple head args pt, out, h => by
      simp only [WellFormed, Bool.and_eq_true, Bool.or_eq_true, decide_eq_true_eq] at h
      obtain ⟨hk, hargs⟩ := h
      have hpt : pt = FUNCTION_EXPRESSION ∨ pt = ATOMIC_PREDICATE ∨
          pt = PREDICATE_COMPREHENSION ∨ pt = PREDICATE_EXPRESSION := by
        rcases hk with ((hk | hk) | hk) | hk
        · exact Or.inl hk.1.1
        · exact Or.inr (Or.inl hk.1.1)
        · exact Or.inr (Or.inr (Or.inl hk.1.1))
        · exact Or.inr (Or.inr (Or.inr hk.1.1))
      have hloop := fun o => WriteArgs_canonicalTexts args 0 args.length o hargs (by omega)
      rcases hpt with rfl | rfl | rfl | rfl
      · rw [Write, WriteSwitch_tuple _ _ _ out _ _ _ (Or.inl ⟨rfl, rfl, rfl⟩) (hloop _)]
        simp [canonicalText, String.append_assoc]
      · rw [Write, WriteSwitch_tuple _ _ _ out _ _ _ (Or.inr (Or.inl ⟨rfl, rfl, rfl⟩))
          (hloop _)]
        simp [canonicalText, String.append_assoc]
      · rw [Write, WriteSwitch_tuple _ _ _ out _ _ _
          (Or.inr (Or.inr (Or.inl ⟨rfl, rfl, rfl⟩))) (hloop _)]
        simp [canonicalText, String.append_assoc]
      · rw [Write, WriteSwitch_tuple _ _ _ out _ _ _
          (Or.inr (Or.inr (Or.inr ⟨rfl, rfl, rfl⟩))) (hloop _)]
        simp [canonicalText, String.append_assoc]
  | .ofQuantified q v arg pt, out, h => by
      simp only [WellFormed, Bool.and_eq_true, Bool.or_eq_true, decide_eq_true_eq] at h
      obtain ⟨⟨⟨⟨hk, _⟩, _⟩, _⟩, harg⟩ := h
      have ih := fun o => Write_canonicalText arg o harg
      rcases hk with rfl | rfl <;>
        simp [Write, WriteSwitch, ih, Except.map, canonicalText, String.append_assoc,
          bind, Except.bind]
/-- On well-formed arguments the loop over the arguments appends their canonical
texts joined by `,`. -/
theorem WriteArgs_canonicalTexts : ∀ (args : List Particle) (i arity : Nat) (out : String),
    WellFormedAll args = true → i + args.length = arity →
    WriteArgs args i arity out = .ok (out ++ joinComma (canonicalTexts args))
  | [], _, _, out, _, _ => by
      simp [WriteArgs, canonicalTexts, joinComma]
  | t :: ts, i, arity, out, h, hlen => by
      simp only [WellFormedAll, Bool.and_eq_true] at h
      have ht := Write_canonicalText t out h.1
      cases ts with
      | nil =>
          have hi : ¬ ((i : Int) < (arity : Int) - 1) := by
            simp only [List.length_cons, List.length_nil] at hlen
            omega
          simp [WriteArgs, ht, hi, canonicalTexts, joinComma, bind, Except.bind]
      | cons b l =>
          have hi : (i : Int) < (arity : Int) - 1 := by
            simp only [List.length_cons] at hlen
            omega
          have ih := WriteArgs_canonicalTexts (b :: l) (i + 1) arity
            (out ++ canonicalText t ++ ",") h.2
            (by simp only [List.length_cons] at hlen ⊢; omega)
          rw [WriteArgs]
          simp only [ht, bind, Except.bind, hi, if_true]
          rw [ih]
          simp [canonicalTexts, joinComma, String.append_assoc]
end


/-! ## Particles of the source are well-formed -/

theorem WellFormed_of_builder (k : ParticleType) (head : BasicName) (args : List Particle)
    (t : Particle)
    (h : GetTuple k head args = .ok t ∨ GetFunctionExpression head args = .ok t ∨
      GetAtomicPredicate head args = .ok t ∨ GetPredicateExpression head args = .ok t ∨
      GetPredicateComprehension head args = .ok t)
    (hargs : ∀ a, a ∈ args → WellFormed a = true) : WellFormed t = true := by
  have key := tuple_builders_table head args ""
  have hall := (WellFormedAll_iff args).2 hargs
  have hFE : GetFunctionExpression head args = .ok t → WellFormed t = true := by
    intro e
    have h1 := key.1
    rw [e] at h1
    simp only [Except.toOption] at h1
    split_ifs at h1 with hc
    rw [Option.some.inj h1]
    simp [WellFormed, hc.1, hc.2, hall]
  have hAP : GetAtomicPredicate head args = .ok t → WellFormed t = true := by
    intro e
    have h1 := key.2.1
    rw [e] at h1
    simp only [Except.toOption] at h1
    split_ifs at h1 with hc
    rw [Option.some.inj h1]
    simp [WellFormed, hc.1, hc.2, hall]
  have hPC : GetPredicateComprehension head args = .ok t → WellFormed t = true := by
    intro e
    have h1 := key.2.2.1
    rw [e] at h1
    simp only [Except.toOption] at h1
    split_ifs at h1 with hc
    rw [Option.some.inj h1]
    simp [WellFormed, hc.1, hc.2, hall]
  have hPE : GetPredicateExpression head args = .ok t → WellFormed t = true := by
    intro e
    have h1 := key.2.2.2.1
    rw [e] at h1
    simp only [Except.toOption] at h1
    split_ifs at h1 with hc
    rw [Option.some.inj h1]
    simp [WellFormed, hc.1, hc.2, hall]
  rcases h with h | h | h | h | h
  · unfold GetTuple at h
    split_ifs at h
    · exact hAP h
    · exact hAP h
    · exact hPE h
    · exact hPC h
  · exact hFE h
  · exact hAP h
  · exact hPE h
  · exact hPC h

theorem WellFormed_of_quantified (q : BasicName) (v : BasicVariable) (arg p : Particle)
    (h : GetQuantifiedTerm q v arg = .ok p ∨ GetQuantifiedPredicate q v arg = .ok p)
    (hv : WellFormed (.ofVariable v) = true) (harg : WellFormed arg = true) :
    WellFormed p = true := by
  have key := quantified_builders_shape q v arg
  simp only [WellFormed, decide_eq_true_eq] at hv
  rcases h with e | e
  · have h1 := key.1
    rw [e] at h1
    simp only [Except.toOption] at h1
    split_ifs at h1 with hc
    rw [Option.some.inj h1]
    simp [WellFormed, hc.1, hc.2.2, hv, harg]
  · have h1 := key.2.1
    rw [e] at h1
    simp only [Except.toOption] at h1
    split_ifs at h1 with hc
    rw [Option.some.inj h1]
    simp [WellFormed, hc.1, hc.2.2, hv, harg]

theorem WellFormed_of_GetVariable (n : BasicName) (v : BasicVariable)
    (h : GetVariable n = .ok v) : WellFormed (.ofVariable v) = true := by
  unfold GetVariable at h
  split_ifs at h with hc
  cases h
  simpa [WellFormed] using hc

theorem WellFormed_of_Get (k : ParticleType) (parts : List Particle) (p : Particle)
    (h : Get k parts = .ok p) (hparts : ∀ a, a ∈ parts → WellFormed a = true) :
    WellFormed p = true := by
  unfold Get at h
  split_ifs at h
  · match parts, h with
    | [p0], h =>
        cases hn : p0.asName with
        | none => simp [hn] at h
        | some n =>
            simp only [hn] at h
            cases hv : GetVariable n with
            | error e => simp [hv, Except.map] at h
            | ok v =>
                simp only [hv, Except.map] at h
                cases h
                exact WellFormed_of_GetVariable n v hv
  · match parts, h, hparts with
    | p0 :: rest, h, hparts =>
        cases hn : p0.asName with
        | none => simp [hn] at h
        | some n =>
            simp only [hn] at h
            exact WellFormed_of_builder k n rest p (Or.inl h)
              (fun a ha => hparts a (List.mem_cons_of_mem _ ha))
  · match parts, h, hparts with
    | [p0, p1, p2], h, hparts =>
        cases hn : p0.asName with
        | none => simp [hn] at h
        | some n =>
            cases p1 with
            | ofVariable v =>
                simp only [hn, Particle.asNamedParticle] at h
                exact WellFormed_of_quantified n v p2 p (Or.inl h)
                  (hparts _ (by simp)) (hparts _ (by simp))
            | ofName _ => simp [hn, Particle.asNamedParticle] at h
            | ofTuple _ _ _ => simp [hn, Particle.asNamedParticle] at h
            | ofQuantified _ _ _ _ => simp [hn, Particle.asNamedParticle] at h
  · match parts, h, hparts with
    | [p0, p1, p2], h, hparts =>
        cases hn : p0.asName with
        | none => simp [hn] at h
        | some n =>
            cases p1 with
            | ofVariable v =>
                simp only [hn, Particle.asNamedParticle] at h
                exact WellFormed_of_quantified n v p2 p (Or.inr h)
                  (hparts _ (by simp)) (hparts _ (by simp))
            | ofName _ => simp [hn, Particle.asNamedParticle] at h
            | ofTuple _ _ _ => simp [hn, Particle.asNamedParticle] at h
            | ofQuantified _ _ _ _ => simp [hn, Particle.asNamedParticle] at h

/-- Every particle obtained from the source is well-formed at every node. -/
theorem WellFormed_of_Built (p : Particle) (h : Built p) : WellFormed p = true := by
  induction h with
  | variableName s => rfl
  | functionName s => rfl
  | predicateName s => rfl
  | operator s => rfl
  | quantifier s => rfl
  | name k s n hn =>
      unfold GetName at hn
      split_ifs at hn <;> cases hn <;> rfl
  | variableNamed s => rfl
  | var n v _ hv _ => exact WellFormed_of_GetVariable n v hv
  | functionExpression head args p _ _ hp _ ih =>
      exact WellFormed_of_builder FUNCTION_EXPRESSION head args p (Or.inr (Or.inl hp)) ih
  | atomicPredicate head args p _ _ hp _ ih =>
      exact WellFormed_of_builder ATOMIC_PREDICATE head args p (Or.inr (Or.inr (Or.inl hp))) ih
  | predicateExpression head args p _ _ hp _ ih =>
      exact WellFormed_of_builder PREDICATE_EXPRESSION head args p
        (Or.inr (Or.inr (Or.inr (Or.inl hp)))) ih
  | predicateComprehension head args p _ _ hp _ ih =>
      exact WellFormed_of_builder PREDICATE_COMPREHENSION head args p
        (Or.inr (Or.inr (Or.inr (Or.inr hp)))) ih
  | tuple k head args p _ _ hp _ ih =>
      exact WellFormed_of_builder k head args p (Or.inl hp) ih
  | quantifiedTerm q v arg p _ _ _ hp _ ihv iharg =>
      exact WellFormed_of_quantified q v arg p (Or.inl hp) ihv iharg
  | quantifiedPredicate q v arg p _ _ _ hp _ ihv iharg =>
      exact WellFormed_of_quantified q v arg p (Or.inr hp) ihv iharg
  | get k parts p _ hp ih => exact WellFormed_of_Get k parts p hp ih

/-- C15: for every particle obtained from the source, `Write` with its default
chain returns no error and appends to the sink exactly the text of the canonical
grammar; on an empty sink the sink is that text. -/
theorem Write_emits_canonical_grammar (p : Particle) (out : String) (h : Built p) :
    Write p out = .ok (out ++ canonicalText p, none) ∧
      Write p "" = .ok (canonicalText p, none) := by
  have hw := WellFormed_of_Built p h
  refine ⟨Write_canonicalText p out hw, ?_⟩
  have := Write_canonicalText p "" hw
  simpa using this


theorem Built_atom_Foo_x :
    Built (.ofTuple (GetPredicateName "Foo") [.ofVariable (GetVariableNamed "x")]
      ATOMIC_PREDICATE) :=
  Built.atomicPredicate (GetPredicateName "Foo") [.ofVariable (GetVariableNamed "x")] _
    (Built.predicateName "Foo")
    (fun a ha => by
      rw [List.mem_singleton] at ha
      rw [ha]
      exact Built.variableNamed "x")
    rfl

theorem Built_quantified_Foo_x :
    Built (.ofQuantified (GetQuantifier "A") (GetVariableNamed "x")
      (.ofTuple (GetPredicateName "Foo") [.ofVariable (GetVariableNamed "x")] ATOMIC_PREDICATE)
      QUANTIFIED_TERM) :=
  Built.quantifiedTerm (GetQuantifier "A") (GetVariableNamed "x") _ _
    (Built.quantifier "A") (Built.variableNamed "x") Built_atom_Foo_x rfl

theorem Write_emits_canonical_grammar_witness :
    Built (.ofQuantified (GetQuantifier "A") (GetVariableNamed "x")
        (.ofTuple (GetPredicateName "Foo") [.ofVariable (GetVariableNamed "x")]
          ATOMIC_PREDICATE) QUANTIFIED_TERM) ∧
      canonicalText (.ofQuantified (GetQuantifier "A") (GetVariableNamed "x")
        (.ofTuple (GetPredicateName "Foo") [.ofVariable (GetVariableNamed "x")]
          ATOMIC_PREDICATE) QUANTIFIED_TERM) = "A$x:Foo[$x]:" ∧
      Write (.ofQuantified (GetQuantifier "A") (GetVariableNamed "x")
        (.ofTuple (GetPredicateName "Foo") [.ofVariable (GetVariableNamed "x")]
          ATOMIC_PREDICATE) QUANTIFIED_TERM) "" = .ok ("A$x:Foo[$x]:", none) :=
  ⟨Built_quantified_Foo_x, rfl,
    (Write_emits_canonical_grammar _ "" Built_quantified_Foo_x).2⟩

/-! ## The results of the reader -/

/-- An error that `ReadParticle` returns is the stored message `errMsg` of the
reader followed by ` at `, the line, `:`, the column, ` (pos=`, the position and
`)`, with the counters as the failed call left them. -/
theorem ReadParticle_error_shape (fuel : Nat) (sr : StandardReader) (source : ParticleSource)
    (ptype : ParticleType) (inp : List Char) (r : ReadResult) (e : String)
    (h : ReadParticle fuel sr source ptype inp = some r) (he : r.re = some e) :
    e = r.sr.errMsg ++ " at " ++ toString r.sr.line ++ ":" ++ toString r.sr.col ++
      " (pos=" ++ toString r.sr.pos ++ ")" ∧ r.rp = none := by
  unfold ReadParticle at h
  cases hb : ReadParticleBody (ReadPredicate fuel) fuel sr source ptype inp with
  | ret p sr1 inp1 =>
      rw [hb] at h
      simp only [recovered, Option.some.injEq] at h
      rw [← h] at he
      simp at he
  | panic sr1 inp1 =>
      rw [hb] at h
      simp only [recovered, Option.some.injEq] at h
      rw [← h] at he ⊢
      simp only [Option.some.injEq] at he
      exact ⟨he.symm, rfl⟩
  | stuck =>
      rw [hb] at h
      simp [recovered] at h

/-- C16: the message in the error text is the `errMsg` that the reader holds, not
the message of the failure.  A reader of `GetStandardReader` that holds the
message `m` returns `m` followed by ` at 0:0 (pos=0)` when the call of
`IdentifierStart` panics on `Foo`; with an embedded reader that rejects every
rune, `ReadParticle` for `VARIABLE_NAME` on `'x'` aborts in
`panic("expected 'var'")` and returns ` at 0:1 (pos=1)`. -/
theorem ReadParticle_error_message_is_stored_errMsg (fuel : Nat) (m : String)
    (source : ParticleSource) :
    ReadParticle fuel { GetStandardReader with errMsg := m } source ATOMIC_PREDICATE
        "Foo".toList =
      some { rp := none, re := some (m ++ " at 0:0 (pos=0)"),
             sr := { GetStandardReader with errMsg := m }, inp := "oo".toList } ∧
      ReadParticle fuel { GetStandardReader with LogicReader := some rejectAll } source
          VARIABLE_NAME "'x'".toList =
        some { rp := none, re := some " at 0:1 (pos=1)",
               sr := { GetStandardReader with
                         LogicReader := some rejectAll, col := 1, pos := 1 },
               inp := "x'".toList } := by
  constructor
  · have h : ReadParticle fuel { GetStandardReader with errMsg := m } source ATOMIC_PREDICATE
        "Foo".toList =
        some { rp := none,
               re := some (m ++ " at " ++ toString (0 : Int) ++ ":" ++ toString (0 : Int) ++
                 " (pos=" ++ toString (0 : Int) ++ ")"),
               sr := { GetStandardReader with errMsg := m }, inp := "oo".toList } := rfl
    rw [h]
    have e : m ++ " at " ++ toString (0 : Int) ++ ":" ++ toString (0 : Int) ++
        " (pos=" ++ toString (0 : Int) ++ ")" = m ++ " at 0:0 (pos=0)" := by
      simp only [String.append_assoc]
      rfl
    rw [e]
  · rfl


theorem Outcome.bind_eq_ret {α β : Type} (x : Outcome α)
    (f : α → StandardReader → List Char → Outcome β) (b : β) (sr : StandardReader)
    (inp : List Char) (h : x.bind f = .ret b sr inp) :
    ∃ a sr1 inp1, x = .ret a sr1 inp1 ∧ f a sr1 inp1 = .ret b sr inp := by
  cases x with
  | ret a sr1 inp1 => exact ⟨a, sr1, inp1, rfl, h⟩
  | panic sr1 inp1 => simp [Outcome.bind] at h
  | stuck => simp [Outcome.bind] at h

theorem construct_eq_ret (source : ParticleSource) (args : List (Option Particle))
    (build : List Particle → Except String Particle) (sr sr1 : StandardReader)
    (inp inp1 : List Char) (o : Option Particle)
    (h : construct source args build sr inp = .ret o sr1 inp1) :
    ∃ as p, build as = .ok p ∧ o = some p := by
  unfold construct at h
  cases source with
  | none => simp at h
  | some bs =>
      cases hall : args.allSome with
      | none => simp [hall] at h
      | some as =>
          cases hb : build as with
          | ok p =>
              simp only [hall, hb, Outcome.ret.injEq] at h
              exact ⟨as, p, hb, h.1.symm⟩
          | error e => simp [hall, hb] at h

theorem recovered_eq_some_particle (x : Outcome (Option Particle)) (r : ReadResult)
    (p : Particle) (h : recovered x = some r) (hp : r.rp = some p) :
    ∃ sr inp, x = .ret (some p) sr inp := by
  cases x with
  | ret o sr inp =>
      simp only [recovered, Option.some.injEq] at h
      rw [← h] at hp
      simp only at hp
      exact ⟨sr, inp, by rw [hp]⟩
  | panic sr inp =>
      simp only [recovered, Option.some.injEq] at h
      rw [← h] at hp
      simp at hp
  | stuck => simp [recovered] at h

theorem Kind_of_GetAtomicPredicate (head : BasicName) (args : List Particle) (p : Particle)
    (h : GetAtomicPredicate head args = .ok p) : p.Kind = ATOMIC_PREDICATE := by
  have h1 := (tuple_builders_table head args "").2.1
  rw [h] at h1
  simp only [Except.toOption] at h1
  split_ifs at h1
  rw [Option.some.inj h1]
  rfl

theorem Kind_of_GetPredicateExpression (head : BasicName) (args : List Particle)
    (p : Particle) (h : GetTuple PREDICATE_EXPRESSION head args = .ok p) :
    p.Kind = PREDICATE_EXPRESSION := by
  have h0 : GetTuple PREDICATE_EXPRESSION head args = GetPredicateExpression head args := rfl
  rw [h0] at h
  have h1 := (tuple_builders_table head args "").2.2.2.1
  rw [h] at h1
  simp only [Except.toOption] at h1
  split_ifs at h1
  rw [Option.some.inj h1]
  rfl

/-- The atomic predicate case of `ReadParticle`. -/
theorem ReadParticleBody_atomic_predicate
    (rd : StandardReader → ParticleSource → List Char → Option ReadResult) (fuel : Nat)
    (sr : StandardReader) (source : ParticleSource) (inp : List Char) :
    ReadParticleBody rd fuel sr source ATOMIC_PREDICATE inp =
      (NextIdentifier sr inp).bind fun name sr inp =>
        (ReadDelimitedTermList fuel (NextWS sr inp).2.1 (NextWS sr inp).2.2 '[' ']').bind
          fun args sr inp =>
            construct source args (GetAtomicPredicate (GetPredicateName name)) sr inp :=
  rfl

/-- The predicate-expression case of `ReadParticle`: whatever is read, the
particle comes from `GetTuple(PREDICATE_EXPRESSION, ...)`. -/
theorem ReadParticleBody_predicate_expression_kind
    (rd : StandardReader → ParticleSource → List Char → Option ReadResult) (fuel : Nat)
    (sr sr1 : StandardReader) (source : ParticleSource) (inp inp1 : List Char) (p : Particle)
    (h : ReadParticleBody rd fuel sr source PREDICATE_EXPRESSION inp = .ret (some p) sr1 inp1) :
    p.Kind = PREDICATE_EXPRESSION := by
  have e : ReadParticleBody rd fuel sr source PREDICATE_EXPRESSION inp =
      (NextString sr inp "\x7b").bind fun _ sr inp =>
        (NextIdentifier (NextWS sr inp).2.1 (NextWS sr inp).2.2).bind fun op sr inp =>
          (NextString (NextWS sr inp).2.1 (NextWS sr inp).2.2
              (PredicateTupleMark PREDICATE_EXPRESSION)).bind fun _ sr inp =>
            (if !TestPeek (NextWS sr inp).2.2 (Char.ofNat 125) then
                predLoop rd fuel (NextWS sr inp).2.1 (NextWS sr inp).2.2 []
              else .ret [] (NextWS sr inp).2.1 (NextWS sr inp).2.2).bind fun args sr inp =>
              construct source args (GetTuple PREDICATE_EXPRESSION (GetOperator op)) sr inp :=
    rfl
  rw [e] at h
  obtain ⟨_, _, _, _, h⟩ := Outcome.bind_eq_ret _ _ _ _ _ h
  obtain ⟨op, _, _, _, h⟩ := Outcome.bind_eq_ret _ _ _ _ _ h
  obtain ⟨_, _, _, _, h⟩ := Outcome.bind_eq_ret _ _ _ _ _ h
  obtain ⟨args, _, _, _, h⟩ := Outcome.bind_eq_ret _ _ _ _ _ h
  obtain ⟨as, q, hb, hq⟩ := construct_eq_ret _ _ _ _ _ _ _ _ h
  rw [Option.some.inj hq]
  exact Kind_of_GetPredicateExpression _ _ _ hb

theorem ReadParticleBody_atomic_predicate_kind
    (rd : StandardReader → ParticleSource → List Char → Option ReadResult) (fuel : Nat)
    (sr sr1 : StandardReader) (source : ParticleSource) (inp inp1 : List Char) (p : Particle)
    (h : ReadParticleBody rd fuel sr source ATOMIC_PREDICATE inp = .ret (some p) sr1 inp1) :
    p.Kind = ATOMIC_PREDICATE := by
  rw [ReadParticleBody_atomic_predicate] at h
  obtain ⟨name, _, _, _, h⟩ := Outcome.bind_eq_ret _ _ _ _ _ h
  obtain ⟨args, _, _, _, h⟩ := Outcome.bind_eq_ret _ _ _ _ _ h
  obtain ⟨as, q, hb, hq⟩ := construct_eq_ret _ _ _ _ _ _ _ _ h
  rw [Option.some.inj hq]
  exact Kind_of_GetAtomicPredicate _ _ _ hb

/-- C17: `ReadPredicate` is `ReadParticle` for `PREDICATE_EXPRESSION` when the next
rune is an opening brace and `ReadParticle` for `ATOMIC_PREDICATE` otherwise, also
at the end of the input; a particle it returns is a predicate-expression or an
atomic predicate. -/
theorem ReadPredicate_dispatch (fuel : Nat) (sr : StandardReader) (source : ParticleSource)
    (inp : List Char) :
    ReadPredicate (fuel + 1) sr source inp =
        (if TestPeek inp (Char.ofNat 123) = true then
          ReadParticle fuel sr source PREDICATE_EXPRESSION inp
        else ReadParticle fuel sr source ATOMIC_PREDICATE inp) ∧
      ReadPredicate (fuel + 1) sr source (Char.ofNat 123 :: inp) =
        ReadParticle fuel sr source PREDICATE_EXPRESSION (Char.ofNat 123 :: inp) ∧
      ReadPredicate (fuel + 1) sr source [] = ReadParticle fuel sr source ATOMIC_PREDICATE [] ∧
      (∀ c, c ≠ Char.ofNat 123 → ReadPredicate (fuel + 1) sr source (c :: inp) =
        ReadParticle fuel sr source ATOMIC_PREDICATE (c :: inp)) ∧
      ∀ r p, ReadPredicate (fuel + 1) sr source inp = some r → r.rp = some p →
        p.Kind = PREDICATE_EXPRESSION ∨ p.Kind = ATOMIC_PREDICATE := by
  have hd : ∀ l, ReadPredicate (fuel + 1) sr source l =
      (if TestPeek l (Char.ofNat 123) = true then
        ReadParticle fuel sr source PREDICATE_EXPRESSION l
      else ReadParticle fuel sr source ATOMIC_PREDICATE l) := by
    intro l
    rw [ReadPredicate]
    rfl
  refine ⟨hd inp, ?_, ?_, ?_, ?_⟩
  · rw [hd]
    simp [TestPeek]
  · rw [hd]
    simp [TestPeek]
  · intro c hc
    rw [hd]
    simp [TestPeek, Ne.symm hc]
  · intro r p h hp
    rw [hd] at h
    split_ifs at h
    · obtain ⟨sr1, inp1, hx⟩ := recovered_eq_some_particle _ r p h hp
      exact Or.inl (ReadParticleBody_predicate_expression_kind _ _ _ _ _ _ _ _ hx)
    · obtain ⟨sr1, inp1, hx⟩ := recovered_eq_some_particle _ r p h hp
      exact Or.inr (ReadParticleBody_atomic_predicate_kind _ _ _ _ _ _ _ _ hx)

theorem ReadPredicate_dispatch_witness :
    ReadPredicate 1 { GetStandardReader with LogicReader := some rejectAll }
        CreateBasicParticleSource "\x7b:\x7d".toList =
      some { rp := some (.ofTuple (GetOperator "") [] PREDICATE_EXPRESSION), re := none,
             sr := { GetStandardReader with
                       LogicReader := some rejectAll, col := 2, pos := 2 },
             inp := "\x7d".toList } ∧
      ((Particle.ofTuple (GetOperator "") [] PREDICATE_EXPRESSION).Kind = PREDICATE_EXPRESSION ∨
        (Particle.ofTuple (GetOperator "") [] PREDICATE_EXPRESSION).Kind = ATOMIC_PREDICATE) :=
  ⟨rfl, (ReadPredicate_dispatch 0 { GetStandardReader with LogicReader := some rejectAll }
    CreateBasicParticleSource "\x7b:\x7d".toList).2.2.2.2 _ _ rfl rfl⟩


/-- A name obtained from the source has one of the five name kinds. -/
theorem IsNameKind_of_Built (a : BasicName) (h : Built (.ofName a)) : IsNameKind a.ptype := by
  have hw := WellFormed_of_Built _ h
  simp only [WellFormed, Bool.or_eq_true, decide_eq_true_eq] at hw
  unfold IsNameKind
  tauto


/-! ## The dispatcher Get -/

theorem toOption_map {α β : Type} (f : α → β) (x : Except String α) :
    (x.map f).toOption = x.toOption.map f := by
  cases x <;> rfl

theorem GetTuple_rejects_variable_head (k : ParticleType) (s : String) (rest : List Particle) :
    (GetTuple k { name := s, ptype := VARIABLE } rest).toOption = none := by
  unfold GetTuple
  split_ifs <;>
    simp [GetAtomicPredicate, GetPredicateExpression, GetPredicateComprehension,
      Except.toOption]

/-- C21: `Get` succeeds exactly where the dispatcher of the specification does,
with the same particle: on `VARIABLE` with one name it is `GetVariable`, on a
tuple kind with a name and further parts it is `GetTuple` of that kind, on the
two quantified kinds with a name, a variable and a body it is
`GetQuantifiedTerm` and `GetQuantifiedPredicate`, panics included; with another
number of parts, a first part that is no name, a name kind or any other kind it
panics. -/
theorem Get_agrees_with_constructors (k : ParticleType) (parts : List Particle)
    (n : BasicName) (args : List Particle) (v : BasicVariable) (body : Particle) :
    (Get k parts).toOption = GetBySpec k parts ∧
      Get VARIABLE [.ofName n] = (GetVariable n).map Particle.ofVariable ∧
      Get FUNCTION_EXPRESSION (.ofName n :: args) = GetTuple FUNCTION_EXPRESSION n args ∧
      Get ATOMIC_PREDICATE (.ofName n :: args) = GetTuple ATOMIC_PREDICATE n args ∧
      Get PREDICATE_COMPREHENSION (.ofName n :: args) =
        GetTuple PREDICATE_COMPREHENSION n args ∧
      Get PREDICATE_EXPRESSION (.ofName n :: args) = GetTuple PREDICATE_EXPRESSION n args ∧
      Get QUANTIFIED_TERM [.ofName n, .ofVariable v, body] = GetQuantifiedTerm n v body ∧
      Get QUANTIFIED_PREDICATE [.ofName n, .ofVariable v, body] =
        GetQuantifiedPredicate n v body := by
  refine ⟨?_, rfl, rfl, rfl, rfl, rfl, rfl, rfl⟩
  unfold Get GetBySpec
  split_ifs with h1 h2 h3 h4
  · rcases parts with _ | ⟨p0, _ | ⟨p1, rest⟩⟩
    · rfl
    · cases p0 with
      | ofName m => exact toOption_map _ _
      | ofVariable w => rfl
      | ofTuple _ _ _ => rfl
      | ofQuantified _ _ _ _ => rfl
    · cases p0 <;> rfl
  · rcases parts with _ | ⟨p0, rest⟩
    · rfl
    · cases p0 with
      | ofName m => rfl
      | ofVariable w =>
          simp only [Particle.asName]
          exact GetTuple_rejects_variable_head k _ rest
      | ofTuple _ _ _ => rfl
      | ofQuantified _ _ _ _ => rfl
  · rcases parts with _ | ⟨p0, _ | ⟨p1, _ | ⟨p2, _ | ⟨p3, rest⟩⟩⟩⟩
    · rfl
    · cases p0 <;> rfl
    · cases p0 <;> cases p1 <;> rfl
    · cases p0 <;> cases p1 <;>
        simp [Particle.asName, Particle.asNamedParticle, Except.toOption, GetQuantifiedTerm]
    · cases p0 <;> cases p1 <;> rfl
  · rcases parts with _ | ⟨p0, _ | ⟨p1, _ | ⟨p2, _ | ⟨p3, rest⟩⟩⟩⟩
    · rfl
    · cases p0 <;> rfl
    · cases p0 <;> cases p1 <;> rfl
    · cases p0 <;> cases p1 <;>
        simp [Particle.asName, Particle.asNamedParticle, Except.toOption,
          GetQuantifiedPredicate]
    · cases p0 <;> cases p1 <;> rfl
  · rfl


/-! ## Well-formedness as an invariant of construction -/

/-- C22: every particle obtained from the source by any sequence of its
operations on particles of the source is well-formed at every node: the head and
the arguments of each tuple match the table row of its kind, each quantified
node has a quantifier of kind `QUANTIFIER`, a variable and a Predicate body, and
each variable wraps a name of kind `VARIABLE_NAME`. -/
theorem Built_is_well_formed_at_every_node (p : Particle) (h : Built p) :
    WellFormed p = true := by
  induction h with
  | variableName s => rfl
  | functionName s => rfl
  | predicateName s => rfl
  | operator s => rfl
  | quantifier s => rfl
  | name k s n hn =>
      unfold GetName at hn
      split_ifs at hn <;> cases hn <;> rfl
  | variableNamed s => rfl
  | var n v _ hv _ => exact WellFormed_of_GetVariable n v hv
  | functionExpression head args p _ _ hp _ ih =>
      exact WellFormed_of_builder FUNCTION_EXPRESSION head args p (Or.inr (Or.inl hp)) ih
  | atomicPredicate head args p _ _ hp _ ih =>
      exact WellFormed_of_builder ATOMIC_PREDICATE head args p (Or.inr (Or.inr (Or.inl hp))) ih
  | predicateExpression head args p _ _ hp _ ih =>
      exact WellFormed_of_builder PREDICATE_EXPRESSION head args p
        (Or.inr (Or.inr (Or.inr (Or.inl hp)))) ih
  | predicateComprehension head args p _ _ hp _ ih =>
      exact WellFormed_of_builder PREDICATE_COMPREHENSION head args p
        (Or.inr (Or.inr (Or.inr (Or.inr hp)))) ih
  | tuple k head args p _ _ hp _ ih =>
      exact WellFormed_of_builder k head args p (Or.inl hp) ih
  | quantifiedTerm q v arg p _ _ _ hp _ ihv iharg =>
      exact WellFormed_of_quantified q v arg p (Or.inl hp) ihv iharg
  | quantifiedPredicate q v arg p _ _ _ hp _ ihv iharg =>
      exact WellFormed_of_quantified q v arg p (Or.inr hp) ihv iharg
  | get k parts p _ hp ih => exact WellFormed_of_Get k parts p hp ih

theorem Built_is_well_formed_at_every_node_witness :
    Built (.ofQuantified (GetQuantifier "A") (GetVariableNamed "x")
        (.ofTuple (GetPredicateName "Foo") [.ofVariable (GetVariableNamed "x")]
          ATOMIC_PREDICATE) QUANTIFIED_TERM) ∧
      WellFormed (.ofQuantified (GetQuantifier "A") (GetVariableNamed "x")
        (.ofTuple (GetPredicateName "Foo") [.ofVariable (GetVariableNamed "x")]
          ATOMIC_PREDICATE) QUANTIFIED_TERM) = true :=
  ⟨Built_quantified_Foo_x, Built_is_well_formed_at_every_node _ Built_quantified_Foo_x⟩

/-- Well-formedness does not hold of every particle: an atomic predicate with a
function-name head, a tuple with a name as argument below the root, a variable
that wraps an operator and a quantified particle with a Term body fail it. -/
theorem WellFormed_rejects :
    WellFormed (.ofTuple (GetFunctionName "f") [] ATOMIC_PREDICATE) = false ∧
      WellFormed (.ofTuple (GetOperator "o")
        [.ofTuple (GetFunctionName "f") [.ofName (GetFunctionName "g")] FUNCTION_EXPRESSION]
        PREDICATE_COMPREHENSION) = false ∧
      WellFormed (.ofVariable { name := GetOperator "o" }) = false ∧
      WellFormed (.ofQuantified (GetQuantifier "A") (GetVariableNamed "x")
        (.ofVariable (GetVariableNamed "x")) QUANTIFIED_PREDICATE) = false :=
  ⟨rfl, rfl, rfl, rfl⟩

/-! ## NextIdentifier on a rejected rune -/

theorem NextIdentifierLoop_rejected_after_run (lr : EmbeddedReader) (d : Char)
    (rest : List Char) (hd : lr.IdentifierPart d = false) (cs : List Char) :
    ∀ (sr : StandardReader) (id : List Char), sr.LogicReader = some lr → id ≠ [] →
      (∀ x, x ∈ cs → lr.IdentifierPart x = true) →
      NextIdentifierLoop sr id (cs ++ d :: rest) =
        .panic { sr with pos := sr.pos + cs.length, col := sr.col + cs.length }
          (d :: rest) := by
  induction cs with
  | nil =>
      intro sr id hlr hid _
      have hlen : id.length ≠ 0 := fun h => hid (List.length_eq_zero.mp h)
      cases sr
      simp only at hlr
      simp [NextIdentifierLoop, hlr, hlen, hd]
  | cons c cs ih =>
      intro sr id hlr hid hcs
      have hlen : id.length ≠ 0 := fun h => hid (List.length_eq_zero.mp h)
      have hc : lr.IdentifierPart c = true := hcs c (List.mem_cons_self _ _)
      have := ih { sr with pos := sr.pos + 1, col := sr.col + 1 } (id ++ [c]) hlr (by simp)
        (fun x hx => hcs x (List.mem_cons_of_mem _ hx))
      cases sr
      simp only at hlr
      simp only [List.cons_append, NextIdentifierLoop, hlr, hlen, hc, if_false,
        Bool.not_true, Bool.false_eq_true]
      simp only [hlr] at this
      refine Eq.trans this ?_
      simp only [List.length_cons, Nat.cast_add, Nat.cast_one, Outcome.panic.injEq,
        StandardReader.mk.injEq, and_true, true_and]
      constructor <;> ring

/-- C23: for every embedded lexical policy, on an input that begins with a rune
that `IdentifierStart` accepts, goes on with runes that `IdentifierPart` accepts
and then has a rune that `IdentifierPart` rejects, `NextIdentifier` panics: `pos`
and `col` have advanced by the length of the run and the rejected rune is the
next rune of the stream, but no identifier is returned. -/
theorem NextIdentifier_panics_on_rejected_rune (lr : EmbeddedReader) (sr : StandardReader)
    (c : Char) (cs : List Char) (d : Char) (rest : List Char)
    (hlr : sr.LogicReader = some lr) (hi : sr.cIdentifier = "")
    (hc : lr.IdentifierStart c = true) (hcs : ∀ x, x ∈ cs → lr.IdentifierPart x = true)
    (hd : lr.IdentifierPart d = false) :
    NextIdentifier sr (c :: (cs ++ d :: rest)) =
      .panic { sr with pos := sr.pos + (cs.length + 1), col := sr.col + (cs.length + 1) }
        (d :: rest) := by
  have h := NextIdentifierLoop_rejected_after_run lr d rest hd cs
    { sr with pos := sr.pos + 1, col := sr.col + 1 } [c] hlr (by simp) hcs
  cases sr
  simp only at hlr hi
  subst hlr
  subst hi
  simp only [NextIdentifier, NextIdentifierLoop, hc, List.length_nil, if_true,
    ne_eq, not_true_eq_false, if_false, Bool.not_true, Bool.false_eq_true, List.nil_append]
  refine Eq.trans h ?_
  simp only [Outcome.panic.injEq, StandardReader.mk.injEq, and_true, true_and]
  constructor <;> ring

theorem NextIdentifier_panics_on_rejected_rune_witness :
    ({ GetStandardReader with LogicReader := some lettersAndDigits } : StandardReader).LogicReader
        = some lettersAndDigits ∧
      ({ GetStandardReader with LogicReader := some lettersAndDigits } :
        StandardReader).cIdentifier = "" ∧
      lettersAndDigits.IdentifierStart 'a' = true ∧
      (∀ x, x ∈ ['b'] → lettersAndDigits.IdentifierPart x = true) ∧
      lettersAndDigits.IdentifierPart '(' = false ∧
      NextIdentifier { GetStandardReader with LogicReader := some lettersAndDigits }
          "ab()".toList =
        .panic { GetStandardReader with
                   LogicReader := some lettersAndDigits, pos := 2, col := 2 }
          "()".toList ∧
      ReadParticle 1 { GetStandardReader with LogicReader := some lettersAndDigits }
          CreateBasicParticleSource FUNCTION_EXPRESSION "ab()".toList =
        some { rp := none, re := some " at 0:2 (pos=2)",
               sr := { GetStandardReader with
                         LogicReader := some lettersAndDigits, pos := 2, col := 2 },
               inp := "()".toList } :=
  ⟨rfl, rfl, rfl, fun x hx => by rw [List.mem_singleton] at hx; rw [hx]; rfl, rfl,
    NextIdentifier_panics_on_rejected_rune lettersAndDigits
      { GetStandardReader with LogicReader := some lettersAndDigits } 'a' ['b'] '(' [')']
      rfl rfl rfl (fun x hx => by rw [List.mem_singleton] at hx; rw [hx]; rfl) rfl,
    rfl⟩

/-! ## The two quantified kinds -/

/-- C24: for a quantifier name `q`, a variable `v` and a Predicate body `b`,
`GetQuantifiedTerm` and `GetQuantifiedPredicate` return particles for which
`Write` does the same on every sink, while `Equals` returns `false` for them in
both directions: their kinds differ. -/
theorem quantified_kinds_share_text (HashString : String → Nat) (FNV_PRIME : Nat)
    (same : Particle → Particle → Bool) (fuel : Nat) (q : BasicName) (v : BasicVariable)
    (b : Particle) (out : String) (hq : q.ptype = QUANTIFIER) (hb : b.Predicate = true) :
    GetQuantifiedTerm q v b = .ok (.ofQuantified q v b QUANTIFIED_TERM) ∧
      GetQuantifiedPredicate q v b = .ok (.ofQuantified q v b QUANTIFIED_PREDICATE) ∧
      Write (.ofQuantified q v b QUANTIFIED_TERM) out =
        Write (.ofQuantified q v b QUANTIFIED_PREDICATE) out ∧
      Equals HashString FNV_PRIME same (fuel + 1) (.ofQuantified q v b QUANTIFIED_TERM)
        (.ofQuantified q v b QUANTIFIED_PREDICATE) = some (.ok false) ∧
      Equals HashString FNV_PRIME same (fuel + 1) (.ofQuantified q v b QUANTIFIED_PREDICATE)
        (.ofQuantified q v b QUANTIFIED_TERM) = some (.ok false) ∧
      (Particle.ofQuantified q v b QUANTIFIED_TERM).Kind ≠
        (Particle.ofQuantified q v b QUANTIFIED_PREDICATE).Kind := by
  refine ⟨?_, ?_, rfl, rfl, rfl, ?_⟩
  · simp [GetQuantifiedTerm, hq, hb, Particle.Kind]
  · simp [GetQuantifiedPredicate, hq, hb, Particle.Kind]
  · simp [Particle.Kind]

theorem quantified_kinds_share_text_witness :
    (GetQuantifier "A").ptype = QUANTIFIER ∧
      (Particle.ofTuple (GetPredicateName "Foo") [.ofVariable (GetVariableNamed "x")]
        ATOMIC_PREDICATE).Predicate = true ∧
      Write (.ofQuantified (GetQuantifier "A") (GetVariableNamed "x")
        (.ofTuple (GetPredicateName "Foo") [.ofVariable (GetVariableNamed "x")]
          ATOMIC_PREDICATE) QUANTIFIED_TERM) "" = .ok ("A$x:Foo[$x]:", none) ∧
      Write (.ofQuantified (GetQuantifier "A") (GetVariableNamed "x")
        (.ofTuple (GetPredicateName "Foo") [.ofVariable (GetVariableNamed "x")]
          ATOMIC_PREDICATE) QUANTIFIED_PREDICATE) "" = .ok ("A$x:Foo[$x]:", none) ∧
      Equals (fun _ => 0) 0 distinctObjects 1
        (.ofQuantified (GetQuantifier "A") (GetVariableNamed "x")
          (.ofTuple (GetPredicateName "Foo") [.ofVariable (GetVariableNamed "x")]
            ATOMIC_PREDICATE) QUANTIFIED_TERM)
        (.ofQuantified (GetQuantifier "A") (GetVariableNamed "x")
          (.ofTuple (GetPredicateName "Foo") [.ofVariable (GetVariableNamed "x")]
            ATOMIC_PREDICATE) QUANTIFIED_PREDICATE) = some (.ok false) :=
  ⟨rfl, rfl, rfl, rfl,
    (quantified_kinds_share_text (fun _ => 0) 0 distinctObjects 0 (GetQuantifier "A")
      (GetVariableNamed "x")
      (.ofTuple (GetPredicateName "Foo") [.ofVariable (GetVariableNamed "x")]
        ATOMIC_PREDICATE) "" rfl rfl).2.2.2.1⟩


end Logic
